import Mathlib

set_option maxRecDepth 16384

/-!
Verification of the jsonc scanner (src/scanner.rs, with src/tokens.rs and
src/common.rs) against its specification.

The scanner is embedded shallowly: the Rust `Scanner` keeps an index `pos`
into a materialized character vector, and every access is at `pos` or
`pos + 1`, moving only forward.  A scanner state is therefore modelled as an
absolute position `pos : Nat` together with the list of characters from that
position to the end of the input; each Rust method becomes a function that
consumes a prefix of that list and advances the position accordingly.  The
`line_number` field of the Rust struct is written but never read by any
observable operation, so it is not carried.  Payload strings
(`ImmutableString` in src/common.rs) are plain Lean `String`s, since the
reference-counting wrapper has no observable behavior beyond its text.
-/

namespace JsoncScanner

/-- Mirror of `TokenError` (src/scanner.rs lines 3-16): an absolute character
offset plus a message. -/
structure TokenError where
  pos : Nat
  message : String
deriving DecidableEq, Repr

/-- Mirror of `Token` (src/tokens.rs): the closed set of lexical categories,
with raw payload text. -/
inductive Token where
  | openBrace
  | closeBrace
  | openBracket
  | closeBracket
  | comma
  | colon
  | string (text : String)
  | boolean (b : Bool)
  | number (text : String)
  | null
  | commentLine (text : String)
  | commentBlock (text : String)
deriving DecidableEq, Repr

/-- Rust `char::is_whitespace`: the Unicode `White_Space` code points,
transcribed exhaustively. -/
def isRustWhitespace (c : Char) : Bool :=
  decide (c.toNat = 0x09 ∨ c.toNat = 0x0A ∨ c.toNat = 0x0B ∨ c.toNat = 0x0C ∨
    c.toNat = 0x0D ∨ c.toNat = 0x20 ∨ c.toNat = 0x85 ∨ c.toNat = 0xA0 ∨
    c.toNat = 0x1680 ∨ (0x2000 ≤ c.toNat ∧ c.toNat ≤ 0x200A) ∨ c.toNat = 0x2028 ∨
    c.toNat = 0x2029 ∨ c.toNat = 0x202F ∨ c.toNat = 0x205F ∨ c.toNat = 0x3000)

/-- `Scanner::is_zero` (line 332). -/
def isZeroChar (c : Char) : Bool := decide (c = '0')

/-- `Scanner::is_one_nine` (line 336). -/
def isOneNineChar (c : Char) : Bool := decide ('1' ≤ c ∧ c ≤ '9')

/-- `Scanner::is_digit` (line 328). -/
def isDigitChar (c : Char) : Bool := isOneNineChar c || isZeroChar c

/-- `Scanner::is_hex` (line 320). -/
def isHexChar (c : Char) : Bool :=
  isDigitChar c || decide (('a' ≤ c ∧ c ≤ 'f') ∨ ('A' ≤ c ∧ c ≤ 'F'))

/-- The set behind Rust `char::is_alphanumeric`, which is
`is_alphabetic() || is_numeric()`: every code point with the Unicode
`Alphabetic` property together with every code point of general category
`Nd`, `Nl` or `No`, taken from the Unicode 14.0.0 character database and
listed in full as closed code-point ranges in increasing order. -/
def alphanumericRanges : List (Nat × Nat) := [
  (48, 57), (65, 90), (97, 122), (170, 170), (178, 179), (181, 181),
  (185, 186), (188, 190), (192, 214), (216, 246), (248, 705), (710, 721),
  (736, 740), (748, 748), (750, 750), (837, 837), (880, 884), (886, 887),
  (890, 893), (895, 895), (902, 902), (904, 906), (908, 908), (910, 929),
  (931, 1013), (1015, 1153), (1162, 1327), (1329, 1366), (1369, 1369),
  (1376, 1416), (1456, 1469), (1471, 1471), (1473, 1474), (1476, 1477),
  (1479, 1479), (1488, 1514), (1519, 1522), (1552, 1562), (1568, 1623),
  (1625, 1641), (1646, 1747), (1749, 1756), (1761, 1768), (1773, 1788),
  (1791, 1791), (1808, 1855), (1869, 1969), (1984, 2026), (2036, 2037),
  (2042, 2042), (2048, 2071), (2074, 2092), (2112, 2136), (2144, 2154),
  (2160, 2183), (2185, 2190), (2208, 2249), (2260, 2271), (2275, 2281),
  (2288, 2363), (2365, 2380), (2382, 2384), (2389, 2403), (2406, 2415),
  (2417, 2435), (2437, 2444), (2447, 2448), (2451, 2472), (2474, 2480),
  (2482, 2482), (2486, 2489), (2493, 2500), (2503, 2504), (2507, 2508),
  (2510, 2510), (2519, 2519), (2524, 2525), (2527, 2531), (2534, 2545),
  (2548, 2553), (2556, 2556), (2561, 2563), (2565, 2570), (2575, 2576),
  (2579, 2600), (2602, 2608), (2610, 2611), (2613, 2614), (2616, 2617),
  (2622, 2626), (2631, 2632), (2635, 2636), (2641, 2641), (2649, 2652),
  (2654, 2654), (2662, 2677), (2689, 2691), (2693, 2701), (2703, 2705),
  (2707, 2728), (2730, 2736), (2738, 2739), (2741, 2745), (2749, 2757),
  (2759, 2761), (2763, 2764), (2768, 2768), (2784, 2787), (2790, 2799),
  (2809, 2812), (2817, 2819), (2821, 2828), (2831, 2832), (2835, 2856),
  (2858, 2864), (2866, 2867), (2869, 2873), (2877, 2884), (2887, 2888),
  (2891, 2892), (2902, 2903), (2908, 2909), (2911, 2915), (2918, 2927),
  (2929, 2935), (2946, 2947), (2949, 2954), (2958, 2960), (2962, 2965),
  (2969, 2970), (2972, 2972), (2974, 2975), (2979, 2980), (2984, 2986),
  (2990, 3001), (3006, 3010), (3014, 3016), (3018, 3020), (3024, 3024),
  (3031, 3031), (3046, 3058), (3072, 3075), (3077, 3084), (3086, 3088),
  (3090, 3112), (3114, 3129), (3133, 3140), (3142, 3144), (3146, 3148),
  (3157, 3158), (3160, 3162), (3165, 3165), (3168, 3171), (3174, 3183),
  (3192, 3198), (3200, 3203), (3205, 3212), (3214, 3216), (3218, 3240),
  (3242, 3251), (3253, 3257), (3261, 3268), (3270, 3272), (3274, 3276),
  (3285, 3286), (3293, 3294), (3296, 3299), (3302, 3311), (3313, 3314),
  (3328, 3340), (3342, 3344), (3346, 3386), (3389, 3396), (3398, 3400),
  (3402, 3404), (3406, 3406), (3412, 3427), (3430, 3448), (3450, 3455),
  (3457, 3459), (3461, 3478), (3482, 3505), (3507, 3515), (3517, 3517),
  (3520, 3526), (3535, 3540), (3542, 3542), (3544, 3551), (3558, 3567),
  (3570, 3571), (3585, 3642), (3648, 3654), (3661, 3661), (3664, 3673),
  (3713, 3714), (3716, 3716), (3718, 3722), (3724, 3747), (3749, 3749),
  (3751, 3769), (3771, 3773), (3776, 3780), (3782, 3782), (3789, 3789),
  (3792, 3801), (3804, 3807), (3840, 3840), (3872, 3891), (3904, 3911),
  (3913, 3948), (3953, 3969), (3976, 3991), (3993, 4028), (4096, 4150),
  (4152, 4152), (4155, 4169), (4176, 4253), (4256, 4293), (4295, 4295),
  (4301, 4301), (4304, 4346), (4348, 4680), (4682, 4685), (4688, 4694),
  (4696, 4696), (4698, 4701), (4704, 4744), (4746, 4749), (4752, 4784),
  (4786, 4789), (4792, 4798), (4800, 4800), (4802, 4805), (4808, 4822),
  (4824, 4880), (4882, 4885), (4888, 4954), (4969, 4988), (4992, 5007),
  (5024, 5109), (5112, 5117), (5121, 5740), (5743, 5759), (5761, 5786),
  (5792, 5866), (5870, 5880), (5888, 5907), (5919, 5939), (5952, 5971),
  (5984, 5996), (5998, 6000), (6002, 6003), (6016, 6067), (6070, 6088),
  (6103, 6103), (6108, 6108), (6112, 6121), (6128, 6137), (6160, 6169),
  (6176, 6264), (6272, 6314), (6320, 6389), (6400, 6430), (6432, 6443),
  (6448, 6456), (6470, 6509), (6512, 6516), (6528, 6571), (6576, 6601),
  (6608, 6618), (6656, 6683), (6688, 6750), (6753, 6772), (6784, 6793),
  (6800, 6809), (6823, 6823), (6847, 6848), (6860, 6862), (6912, 6963),
  (6965, 6979), (6981, 6988), (6992, 7001), (7040, 7081), (7084, 7141),
  (7143, 7153), (7168, 7222), (7232, 7241), (7245, 7293), (7296, 7304),
  (7312, 7354), (7357, 7359), (7401, 7404), (7406, 7411), (7413, 7414),
  (7418, 7418), (7424, 7615), (7655, 7668), (7680, 7957), (7960, 7965),
  (7968, 8005), (8008, 8013), (8016, 8023), (8025, 8025), (8027, 8027),
  (8029, 8029), (8031, 8061), (8064, 8116), (8118, 8124), (8126, 8126),
  (8130, 8132), (8134, 8140), (8144, 8147), (8150, 8155), (8160, 8172),
  (8178, 8180), (8182, 8188), (8304, 8305), (8308, 8313), (8319, 8329),
  (8336, 8348), (8450, 8450), (8455, 8455), (8458, 8467), (8469, 8469),
  (8473, 8477), (8484, 8484), (8486, 8486), (8488, 8488), (8490, 8493),
  (8495, 8505), (8508, 8511), (8517, 8521), (8526, 8526), (8528, 8585),
  (9312, 9371), (9398, 9471), (10102, 10131), (11264, 11492), (11499, 11502),
  (11506, 11507), (11517, 11517), (11520, 11557), (11559, 11559),
  (11565, 11565), (11568, 11623), (11631, 11631), (11648, 11670),
  (11680, 11686), (11688, 11694), (11696, 11702), (11704, 11710),
  (11712, 11718), (11720, 11726), (11728, 11734), (11736, 11742),
  (11744, 11775), (11823, 11823), (12293, 12295), (12321, 12329),
  (12337, 12341), (12344, 12348), (12353, 12438), (12445, 12447),
  (12449, 12538), (12540, 12543), (12549, 12591), (12593, 12686),
  (12690, 12693), (12704, 12735), (12784, 12799), (12832, 12841),
  (12872, 12879), (12881, 12895), (12928, 12937), (12977, 12991),
  (13312, 19903), (19968, 42124), (42192, 42237), (42240, 42508),
  (42512, 42539), (42560, 42606), (42612, 42619), (42623, 42735),
  (42775, 42783), (42786, 42888), (42891, 42954), (42960, 42961),
  (42963, 42963), (42965, 42969), (42994, 43013), (43015, 43047),
  (43056, 43061), (43072, 43123), (43136, 43203), (43205, 43205),
  (43216, 43225), (43250, 43255), (43259, 43259), (43261, 43306),
  (43312, 43346), (43360, 43388), (43392, 43442), (43444, 43455),
  (43471, 43481), (43488, 43518), (43520, 43574), (43584, 43597),
  (43600, 43609), (43616, 43638), (43642, 43710), (43712, 43712),
  (43714, 43714), (43739, 43741), (43744, 43759), (43762, 43765),
  (43777, 43782), (43785, 43790), (43793, 43798), (43808, 43814),
  (43816, 43822), (43824, 43866), (43868, 43881), (43888, 44010),
  (44016, 44025), (44032, 55203), (55216, 55238), (55243, 55291),
  (63744, 64109), (64112, 64217), (64256, 64262), (64275, 64279),
  (64285, 64296), (64298, 64310), (64312, 64316), (64318, 64318),
  (64320, 64321), (64323, 64324), (64326, 64433), (64467, 64829),
  (64848, 64911), (64914, 64967), (65008, 65019), (65136, 65140),
  (65142, 65276), (65296, 65305), (65313, 65338), (65345, 65370),
  (65382, 65470), (65474, 65479), (65482, 65487), (65490, 65495),
  (65498, 65500), (65536, 65547), (65549, 65574), (65576, 65594),
  (65596, 65597), (65599, 65613), (65616, 65629), (65664, 65786),
  (65799, 65843), (65856, 65912), (65930, 65931), (66176, 66204),
  (66208, 66256), (66273, 66299), (66304, 66339), (66349, 66378),
  (66384, 66426), (66432, 66461), (66464, 66499), (66504, 66511),
  (66513, 66517), (66560, 66717), (66720, 66729), (66736, 66771),
  (66776, 66811), (66816, 66855), (66864, 66915), (66928, 66938),
  (66940, 66954), (66956, 66962), (66964, 66965), (66967, 66977),
  (66979, 66993), (66995, 67001), (67003, 67004), (67072, 67382),
  (67392, 67413), (67424, 67431), (67456, 67461), (67463, 67504),
  (67506, 67514), (67584, 67589), (67592, 67592), (67594, 67637),
  (67639, 67640), (67644, 67644), (67647, 67669), (67672, 67702),
  (67705, 67742), (67751, 67759), (67808, 67826), (67828, 67829),
  (67835, 67867), (67872, 67897), (67968, 68023), (68028, 68047),
  (68050, 68099), (68101, 68102), (68108, 68115), (68117, 68119),
  (68121, 68149), (68160, 68168), (68192, 68222), (68224, 68255),
  (68288, 68295), (68297, 68324), (68331, 68335), (68352, 68405),
  (68416, 68437), (68440, 68466), (68472, 68497), (68521, 68527),
  (68608, 68680), (68736, 68786), (68800, 68850), (68858, 68903),
  (68912, 68921), (69216, 69246), (69248, 69289), (69291, 69292),
  (69296, 69297), (69376, 69415), (69424, 69445), (69457, 69460),
  (69488, 69505), (69552, 69579), (69600, 69622), (69632, 69701),
  (69714, 69743), (69745, 69749), (69762, 69816), (69826, 69826),
  (69840, 69864), (69872, 69881), (69888, 69938), (69942, 69951),
  (69956, 69959), (69968, 70002), (70006, 70006), (70016, 70079),
  (70081, 70084), (70094, 70106), (70108, 70108), (70113, 70132),
  (70144, 70161), (70163, 70196), (70199, 70199), (70206, 70206),
  (70272, 70278), (70280, 70280), (70282, 70285), (70287, 70301),
  (70303, 70312), (70320, 70376), (70384, 70393), (70400, 70403),
  (70405, 70412), (70415, 70416), (70419, 70440), (70442, 70448),
  (70450, 70451), (70453, 70457), (70461, 70468), (70471, 70472),
  (70475, 70476), (70480, 70480), (70487, 70487), (70493, 70499),
  (70656, 70721), (70723, 70725), (70727, 70730), (70736, 70745),
  (70751, 70753), (70784, 70849), (70852, 70853), (70855, 70855),
  (70864, 70873), (71040, 71093), (71096, 71102), (71128, 71133),
  (71168, 71230), (71232, 71232), (71236, 71236), (71248, 71257),
  (71296, 71349), (71352, 71352), (71360, 71369), (71424, 71450),
  (71453, 71466), (71472, 71483), (71488, 71494), (71680, 71736),
  (71840, 71922), (71935, 71942), (71945, 71945), (71948, 71955),
  (71957, 71958), (71960, 71989), (71991, 71992), (71995, 71996),
  (71999, 72002), (72016, 72025), (72096, 72103), (72106, 72151),
  (72154, 72159), (72161, 72161), (72163, 72164), (72192, 72242),
  (72245, 72254), (72272, 72343), (72349, 72349), (72368, 72440),
  (72704, 72712), (72714, 72758), (72760, 72766), (72768, 72768),
  (72784, 72812), (72818, 72847), (72850, 72871), (72873, 72886),
  (72960, 72966), (72968, 72969), (72971, 73014), (73018, 73018),
  (73020, 73021), (73023, 73025), (73027, 73027), (73030, 73031),
  (73040, 73049), (73056, 73061), (73063, 73064), (73066, 73102),
  (73104, 73105), (73107, 73110), (73112, 73112), (73120, 73129),
  (73440, 73462), (73648, 73648), (73664, 73684), (73728, 74649),
  (74752, 74862), (74880, 75075), (77712, 77808), (77824, 78894),
  (82944, 83526), (92160, 92728), (92736, 92766), (92768, 92777),
  (92784, 92862), (92864, 92873), (92880, 92909), (92928, 92975),
  (92992, 92995), (93008, 93017), (93019, 93025), (93027, 93047),
  (93053, 93071), (93760, 93846), (93952, 94026), (94031, 94087),
  (94095, 94111), (94176, 94177), (94179, 94179), (94192, 94193),
  (94208, 100343), (100352, 101589), (101632, 101640), (110576, 110579),
  (110581, 110587), (110589, 110590), (110592, 110882), (110928, 110930),
  (110948, 110951), (110960, 111355), (113664, 113770), (113776, 113788),
  (113792, 113800), (113808, 113817), (113822, 113822), (119520, 119539),
  (119648, 119672), (119808, 119892), (119894, 119964), (119966, 119967),
  (119970, 119970), (119973, 119974), (119977, 119980), (119982, 119993),
  (119995, 119995), (119997, 120003), (120005, 120069), (120071, 120074),
  (120077, 120084), (120086, 120092), (120094, 120121), (120123, 120126),
  (120128, 120132), (120134, 120134), (120138, 120144), (120146, 120485),
  (120488, 120512), (120514, 120538), (120540, 120570), (120572, 120596),
  (120598, 120628), (120630, 120654), (120656, 120686), (120688, 120712),
  (120714, 120744), (120746, 120770), (120772, 120779), (120782, 120831),
  (122624, 122654), (122880, 122886), (122888, 122904), (122907, 122913),
  (122915, 122916), (122918, 122922), (123136, 123180), (123191, 123197),
  (123200, 123209), (123214, 123214), (123536, 123565), (123584, 123627),
  (123632, 123641), (124896, 124902), (124904, 124907), (124909, 124910),
  (124912, 124926), (124928, 125124), (125127, 125135), (125184, 125251),
  (125255, 125255), (125259, 125259), (125264, 125273), (126065, 126123),
  (126125, 126127), (126129, 126132), (126209, 126253), (126255, 126269),
  (126464, 126467), (126469, 126495), (126497, 126498), (126500, 126500),
  (126503, 126503), (126505, 126514), (126516, 126519), (126521, 126521),
  (126523, 126523), (126530, 126530), (126535, 126535), (126537, 126537),
  (126539, 126539), (126541, 126543), (126545, 126546), (126548, 126548),
  (126551, 126551), (126553, 126553), (126555, 126555), (126557, 126557),
  (126559, 126559), (126561, 126562), (126564, 126564), (126567, 126570),
  (126572, 126578), (126580, 126583), (126585, 126588), (126590, 126590),
  (126592, 126601), (126603, 126619), (126625, 126627), (126629, 126633),
  (126635, 126651), (127232, 127244), (127280, 127305), (127312, 127337),
  (127344, 127369), (130032, 130041), (131072, 173791), (173824, 177976),
  (177984, 178205), (178208, 183969), (183984, 191456), (194560, 195101),
  (196608, 201546)]

/-- Rust `char::is_alphanumeric`, used for the word-boundary check in
`Scanner::try_move_word` (line 273): membership in `alphanumericRanges`. -/
def isAlphanumericChar (c : Char) : Bool :=
  alphanumericRanges.any (fun r => decide (r.1 ≤ c.toNat ∧ c.toNat ≤ r.2))

/-- `Scanner::skip_whitespace` (lines 248-256): advance while the current
character is whitespace. -/
def skipWhitespace (pos : Nat) (rest : List Char) : Nat × List Char :=
  match rest with
  | [] => (pos, [])
  | c :: rest1 =>
    if isRustWhitespace c then skipWhitespace (pos + 1) rest1
    else (pos, c :: rest1)

/-- The `while self.is_digit()` loops of `Scanner::parse_number`
(lines 158-161, 174-177, 190-193): push digits while the current character is
a digit. -/
def takeDigits (pos : Nat) (text : String) (rest : List Char) :
    String × Nat × List Char :=
  match rest with
  | [] => (text, pos, [])
  | c :: rest1 =>
    if isDigitChar c then takeDigits (pos + 1) (text.push c) rest1
    else (text, pos, c :: rest1)

/-- The character-by-character comparison loop of `Scanner::try_move_word`
(lines 260-270): returns the remaining input after the word when every
character matches. -/
def matchChars : List Char → List Char → Option (List Char)
  | [], rest => some rest
  | _ :: _, [] => none
  | w :: ws, c :: rest => if c = w then matchChars ws rest else none

/-- `Scanner::try_move_word` (lines 258-280): match the word, then reject the
match when the next character is alphanumeric; on success the position moves
past the word. -/
def tryMoveWord (word : String) (pos : Nat) (rest : List Char) :
    Option (Nat × List Char) :=
  match matchChars word.toList rest with
  | none => none
  | some rest1 =>
    match rest1.head? with
    | some nc => if isAlphanumericChar nc then none
                 else some (pos + word.length, rest1)
    | none => some (pos + word.length, rest1)

/-- The scan loop of `Scanner::parse_string` (lines 106-135).  `startPos` is
the offset of the opening quote (`start_pos`, line 101); `pos` is the offset
of the head of `rest`, the character the next `move_next_char` returns.  The
source's `for _ in 0..4` hex loop (lines 116-123) reads up to four characters
and fails with "Expected four hex digits." at `hex_start_pos` on the first
non-hex character or on end of input, so it is unrolled here into one match:
fewer than four remaining characters, or a non-hex among the first four, give
exactly that error, with `hex_start_pos = self.pos - 1` computed while `pos`
is still at the `u` (line 114). -/
def parseStringLoop (startPos pos : Nat) (lastWasBackslash : Bool)
    (text : String) (rest : List Char) :
    Except TokenError (String × Nat × List Char) :=
  match rest with
  | [] => .error ⟨startPos, "Unterminated string literal"⟩
  | c :: rest1 =>
    if lastWasBackslash then
      if c = '"' ∨ c = '\\' ∨ c = '/' ∨ c = 'b' ∨ c = 'f' ∨ c = 'n' ∨
          c = 'r' ∨ c = 't' then
        parseStringLoop startPos (pos + 1) false (text.push c) rest1
      else if c = 'u' then
        match rest1 with
        | h1 :: h2 :: h3 :: h4 :: rest4 =>
          if isHexChar h1 && isHexChar h2 && isHexChar h3 && isHexChar h4 then
            parseStringLoop startPos (pos + 5) false
              (((((text.push c).push h1).push h2).push h3).push h4) rest4
          else .error ⟨pos - 1, "Expected four hex digits."⟩
        | _ => .error ⟨pos - 1, "Expected four hex digits."⟩
      else .error ⟨startPos, "Invalid escape."⟩
    else
      if c = '"' then .ok (text, pos + 1, rest1)
      else parseStringLoop startPos (pos + 1) (decide (c = '\\'))
        (text.push c) rest1

/-- `Scanner::parse_string` (lines 98-142), entered with the opening quote as
the current character at offset `pos`: the first `move_next_char` of the loop
steps past the quote. -/
def parseString (pos : Nat) (rest : List Char) :
    Except TokenError (String × Nat × List Char) :=
  parseStringLoop pos (pos + 1) false "" rest

/-- The fraction step of `Scanner::parse_number` (lines 166-178): `pos` is
the offset of the head of `rest` (the current character). -/
def parseFrac (text : String) (pos : Nat) (rest : List Char) :
    Except TokenError (String × Nat × List Char) :=
  match rest with
  | c :: r =>
    if c = '.' then
      match r with
      | d :: _ =>
        if isDigitChar d then .ok (takeDigits (pos + 1) (text.push '.') r)
        else .error ⟨pos + 1, "Expected a digit."⟩
      | [] => .error ⟨pos + 1, "Expected a digit."⟩
    else .ok (text, pos, c :: r)
  | [] => .ok (text, pos, [])

/-- The exponent step of `Scanner::parse_number` (lines 180-201): after the
`e`/`E` the sign is required, else the error of line 196 at the position the
cursor has reached (one past the `e`). -/
def parseExp (text : String) (pos : Nat) (rest : List Char) :
    Except TokenError (String × Nat × List Char) :=
  match rest with
  | c :: r =>
    if c = 'e' ∨ c = 'E' then
      match r with
      | s :: r2 =>
        if s = '-' ∨ s = '+' then
          match r2 with
          | d :: _ =>
            if isDigitChar d then
              .ok (takeDigits (pos + 2) ((text.push c).push s) r2)
            else .error ⟨pos + 2, "Expected a digit."⟩
          | [] => .error ⟨pos + 2, "Expected a digit."⟩
        else .error ⟨pos + 1, "Expected plus or minus symbol in number literal."⟩
      | [] => .error ⟨pos + 1, "Expected plus or minus symbol in number literal."⟩
    else .ok (text, pos, rest)
  | [] => .ok (text, pos, rest)

/-- The fraction and exponent steps of `Scanner::parse_number` followed by the
final `Ok(Token::Number(text))` (lines 166-204). -/
def parseNumberTail (text : String) (pos : Nat) (rest : List Char) :
    Except TokenError (Token × Nat × List Char) :=
  match parseFrac text pos rest with
  | .error e => .error e
  | .ok (t1, p1, r1) =>
    match parseExp t1 p1 r1 with
    | .error e => .error e
    | .ok (t2, p2, r2) => .ok (.number t2, p2, r2)

/-- The integer part of `Scanner::parse_number` (lines 152-164), after the
optional negative sign has been consumed into `text`. -/
def parseNumberInt (text : String) (pos : Nat) (rest : List Char) :
    Except TokenError (Token × Nat × List Char) :=
  match rest with
  | c :: r =>
    if isZeroChar c then parseNumberTail (text.push '0') (pos + 1) r
    else if isOneNineChar c then
      match takeDigits (pos + 1) (text.push c) r with
      | (t1, p1, r1) => parseNumberTail t1 p1 r1
    else .error ⟨pos, "Expected a digit to follow a negative sign."⟩
  | [] => .error ⟨pos, "Expected a digit to follow a negative sign."⟩

/-- `Scanner::parse_number` (lines 144-205), entered with the current
character (a `-` or a digit) at offset `pos`. -/
def parseNumber (pos : Nat) (rest : List Char) :
    Except TokenError (Token × Nat × List Char) :=
  match rest with
  | c :: r =>
    if c = '-' then parseNumberInt "-" (pos + 1) r
    else parseNumberInt "" pos (c :: r)
  | [] => parseNumberInt "" pos []

/-- The scan loop of `Scanner::parse_comment_line` (lines 213-218): push
characters until the current character is a line terminator in the sense of
`is_new_line` (line 312: a `\n`, or a `\r` immediately followed by `\n`); the
terminator itself is left unconsumed.  `pos` is the offset of the head of
`rest`. -/
def commentLineLoop (pos : Nat) (text : String) (rest : List Char) :
    String × Nat × List Char :=
  match rest with
  | [] => (text, pos, [])
  | c :: rest1 =>
    if c = '\n' ∨ (c = '\r' ∧ rest1.head? = some '\n') then (text, pos, c :: rest1)
    else commentLineLoop (pos + 1) (text.push c) rest1

/-- The scan loop of `Scanner::parse_comment_block` (lines 231-245): push
characters until a `*` whose peek is `/`; on success the cursor then steps
past both closing characters (lines 240-241).  `startPos` is the offset of
the opening `/` (`token_start`, line 224). -/
def commentBlockLoop (startPos pos : Nat) (text : String) (rest : List Char) :
    Except TokenError (String × Nat × List Char) :=
  match rest with
  | [] => .error ⟨startPos, "Unterminated comment block."⟩
  | c :: rest1 =>
    if c = '*' ∧ rest1.head? = some '/' then .ok (text, pos + 2, rest1.tail)
    else commentBlockLoop startPos (pos + 1) (text.push c) rest1

/-- The dispatch of `Scanner::move_next` after whitespace has been skipped
(lines 38-95): `tokenStart` is the recorded token start (line 37), `rest` the
input from that offset.  The Rust `match` arms on distinct characters are
rendered as a chain of equality tests. -/
def dispatch (tokenStart : Nat) (rest : List Char) :
    Except TokenError (Option Token × Nat × List Char) :=
  match rest with
  | [] => .ok (none, tokenStart, [])
  | c :: rest2 =>
    if c = '\x7b' then .ok (some .openBrace, tokenStart + 1, rest2)
    else if c = '\x7d' then .ok (some .closeBrace, tokenStart + 1, rest2)
    else if c = '[' then .ok (some .openBracket, tokenStart + 1, rest2)
    else if c = ']' then .ok (some .closeBracket, tokenStart + 1, rest2)
    else if c = ',' then .ok (some .comma, tokenStart + 1, rest2)
    else if c = ':' then .ok (some .colon, tokenStart + 1, rest2)
    else if c = '"' then
      match parseString tokenStart rest2 with
      | .error e => .error e
      | .ok (text, p1, r1) => .ok (some (.string text), p1, r1)
    else if c = '/' then
      if rest2.head? = some '/' then
        match commentLineLoop (tokenStart + 2) "" rest2.tail with
        | (text, p1, r1) => .ok (some (.commentLine text), p1, r1)
      else if rest2.head? = some '*' then
        match commentBlockLoop tokenStart (tokenStart + 2) "" rest2.tail with
        | .error e => .error e
        | .ok (text, p1, r1) => .ok (some (.commentBlock text), p1, r1)
      else .error ⟨tokenStart, "Unexpected token."⟩
    else if c = '-' ∨ isDigitChar c then
      match parseNumber tokenStart (c :: rest2) with
      | .error e => .error e
      | .ok (t, p1, r1) => .ok (some t, p1, r1)
    else
      match tryMoveWord "true" tokenStart (c :: rest2) with
      | some (p1, r1) => .ok (some (.boolean true), p1, r1)
      | none =>
        match tryMoveWord "false" tokenStart (c :: rest2) with
        | some (p1, r1) => .ok (some (.boolean false), p1, r1)
        | none =>
          match tryMoveWord "null" tokenStart (c :: rest2) with
          | some (p1, r1) => .ok (some .null, p1, r1)
          | none => .error ⟨tokenStart, "Unexpected token."⟩

/-- `Scanner::move_next` (lines 35-96): skip whitespace, record the token
start, dispatch on the current character.  The result carries the produced
token (`none` at end of input), the new cursor position, and the remaining
input. -/
def moveNext (pos : Nat) (rest : List Char) :
    Except TokenError (Option Token × Nat × List Char) :=
  match skipWhitespace pos rest with
  | (tokenStart, rest1) => dispatch tokenStart rest1

/-! ### Spec-side definitions

The following definitions are transcribed from the claims' own words (not from
the source): the rendering of a token's source span, the number grammar of C6,
the hypothesis predicate of C8, and the four-hex-digit test of C4's amended
statement.  They are compared against the source-derived functions above. -/

/-- The rendered source span of a token, as enumerated in C1: structural
characters; `"` + payload + `"` for `String`; the payload for `Number`;
`true`/`false`/`null`; `//` + payload for `CommentLine`; `/*` + payload +
`*/` for `CommentBlock`. -/
def renderToken : Token → List Char
  | .openBrace => ['\x7b']
  | .closeBrace => ['\x7d']
  | .openBracket => ['[']
  | .closeBracket => [']']
  | .comma => [',']
  | .colon => [':']
  | .string s => '"' :: (s.data ++ ['"'])
  | .boolean true => ['t', 'r', 'u', 'e']
  | .boolean false => ['f', 'a', 'l', 's', 'e']
  | .number s => s.data
  | .null => ['n', 'u', 'l', 'l']
  | .commentLine s => '/' :: '/' :: s.data
  | .commentBlock s => '/' :: '*' :: (s.data ++ ['*', '/'])

/-- Greedy `digit*` of the claimed number grammar: drop a maximal run of
digits. -/
def chompDigits : List Char → List Char
  | [] => []
  | c :: rest => if isDigitChar c then chompDigits rest else c :: rest

/-- The optional exponent tail of the claimed number grammar of C6:
`(('e'|'E') ('+'|'-') digit+)?`, required to consume the whole remainder. -/
def numberExpPart : List Char → Bool
  | [] => true
  | c :: r =>
    if c = 'e' ∨ c = 'E' then
      match r with
      | s :: r2 =>
        if s = '+' ∨ s = '-' then
          match r2 with
          | d :: r3 => isDigitChar d && (chompDigits r3).isEmpty
          | [] => false
        else false
      | [] => false
    else false

/-- The optional fraction followed by the optional exponent of the claimed
number grammar of C6: `('.' digit+)? (('e'|'E') ('+'|'-') digit+)?`. -/
def numberFracExp : List Char → Bool
  | [] => true
  | '.' :: r =>
    match r with
    | d :: r2 => isDigitChar d && numberExpPart (chompDigits r2)
    | [] => false
  | l => numberExpPart l

/-- The optional leading minus of the claimed number grammar of C6: `'-'?`. -/
def stripMinus (l : List Char) : List Char :=
  match l with
  | '-' :: r => r
  | _ => l

/-- The integer part and tail of the claimed number grammar of C6:
`('0' | [1-9] digit*) ('.' digit+)? (('e'|'E') ('+'|'-') digit+)?`. -/
def numberIntFracExp : List Char → Bool
  | '0' :: r => numberFracExp r
  | c :: r => if isOneNineChar c then numberFracExp (chompDigits r) else false
  | [] => false

/-- The number grammar claimed in C6:
`'-'? ('0' | [1-9] digit*) ('.' digit+)? (('e'|'E') ('+'|'-') digit+)?`,
matched against the whole character list. -/
def matchesNumberGrammar (l : List Char) : Bool :=
  numberIntFracExp (stripMinus l)

/-- The hypothesis of C8, transcribed from its words: reading the characters
after the opening quote, the flag tracking a pending backslash, a matching
unescaped closing quote is never found before end of input and no other error
(an unrecognized escape, or `\u` not followed by four hex digits) occurs
inside the literal. -/
def stringBodyRunsToEOI : Bool → List Char → Bool
  | _, [] => true
  | true, c :: rest =>
    if c = '"' ∨ c = '\\' ∨ c = '/' ∨ c = 'b' ∨ c = 'f' ∨ c = 'n' ∨
        c = 'r' ∨ c = 't' then
      stringBodyRunsToEOI false rest
    else if c = 'u' then
      match rest with
      | h1 :: h2 :: h3 :: h4 :: rest4 =>
        isHexChar h1 && isHexChar h2 && isHexChar h3 && isHexChar h4 &&
          stringBodyRunsToEOI false rest4
      | _ => false
    else false
  | false, c :: rest =>
    if c = '"' then false else stringBodyRunsToEOI (decide (c = '\\')) rest

/-- Whether a list starts with four hexadecimal digits, as required after
`\u` (C4, C10). -/
def firstFourHex : List Char → Bool
  | h1 :: h2 :: h3 :: h4 :: _ =>
    isHexChar h1 && isHexChar h2 && isHexChar h3 && isHexChar h4
  | _ => false

/-- Scanning a prefix of a string literal's body under the automaton of
`parseStringLoop`: `stringBodyStep b pre = some b2` states that reading `pre`
with pending-backslash flag `b` consumes all of `pre` without reaching an
unescaped closing quote and without an error, leaving the flag at `b2`.  A
result of `some false` means the character following `pre` is read as
ordinary literal content, so C4 and C10 use it to place their `\u` escape
after an arbitrary already-scanned prefix of the literal body. -/
def stringBodyStep : Bool → List Char → Option Bool
  | b, [] => some b
  | true, c :: rest =>
    if c = '"' ∨ c = '\\' ∨ c = '/' ∨ c = 'b' ∨ c = 'f' ∨ c = 'n' ∨
        c = 'r' ∨ c = 't' then
      stringBodyStep false rest
    else if c = 'u' then
      match rest with
      | h1 :: h2 :: h3 :: h4 :: rest4 =>
        if isHexChar h1 && isHexChar h2 && isHexChar h3 && isHexChar h4 then
          stringBodyStep false rest4
        else none
      | _ => none
    else none
  | false, c :: rest =>
    if c = '"' then none else stringBodyStep (decide (c = '\\')) rest

theorem data_push (s : String) (c : Char) : (s.push c).data = s.data ++ [c] := rfl

theorem skipWhitespace_append (ws : List Char)
    (hws : ∀ x ∈ ws, isRustWhitespace x = true) (pos : Nat) (r : List Char)
    (hr : ∀ c, r.head? = some c → isRustWhitespace c = false) :
    skipWhitespace pos (ws ++ r) = (pos + ws.length, r) := by
  induction ws generalizing pos with
  | nil =>
    cases r with
    | nil => simp [skipWhitespace]
    | cons c r1 =>
      have := hr c rfl
      simp [skipWhitespace, this]
  | cons w ws1 ih =>
    have hw : isRustWhitespace w = true := hws w (List.mem_cons_self w ws1)
    have hrec := ih (fun x hx => hws x (List.mem_cons_of_mem w hx)) (pos + 1)
    have harith : pos + 1 + ws1.length = pos + (ws1.length + 1) := by omega
    calc skipWhitespace pos ((w :: ws1) ++ r)
        = skipWhitespace (pos + 1) (ws1 ++ r) := by
          simp [skipWhitespace, hw]
      _ = (pos + 1 + ws1.length, r) := hrec
      _ = (pos + (w :: ws1).length, r) := by
          rw [List.length_cons, harith]

theorem takeDigits_spec :
    ∀ rest pos text t p r, takeDigits pos text rest = (t, p, r) →
      ∃ mid, rest = mid ++ r ∧ t.data = text.data ++ mid ∧
        (∀ c ∈ mid, isDigitChar c = true) ∧
        ∀ c, r.head? = some c → isDigitChar c = false := by
  intro rest
  induction rest with
  | nil =>
    intro pos text t p r h
    simp only [takeDigits, Prod.mk.injEq] at h
    obtain ⟨ht, _, hr⟩ := h
    subst ht; subst hr
    exact ⟨[], rfl, by simp, by simp, by simp⟩
  | cons c rest1 ih =>
    intro pos text t p r h
    by_cases hc : isDigitChar c
    · simp only [takeDigits, hc, if_true] at h
      obtain ⟨mid, hrest, hdata, hdig, hhead⟩ := ih _ _ _ _ _ h
      refine ⟨c :: mid, by simp [hrest], ?_, ?_, hhead⟩
      · simp [hdata, data_push]
      · intro x hx
        rcases List.mem_cons.mp hx with hx | hx
        · exact hx ▸ hc
        · exact hdig x hx
    · simp only [takeDigits, hc, if_false, Bool.false_eq_true,
        Prod.mk.injEq] at h
      obtain ⟨ht, _, hr⟩ := h
      subst ht; subst hr
      refine ⟨[], rfl, by simp, by simp, ?_⟩
      intro x hx
      simp only [List.head?_cons, Option.some.injEq] at hx
      subst hx
      simpa using hc

theorem matchChars_spec :
    ∀ w rest r, matchChars w rest = some r → rest = w ++ r := by
  intro w
  induction w with
  | nil =>
    intro rest r h
    simp only [matchChars, Option.some.injEq] at h
    simp [h]
  | cons wc ws ih =>
    intro rest r h
    cases rest with
    | nil => simp [matchChars] at h
    | cons c rest1 =>
      by_cases hc : c = wc
      · simp only [matchChars, hc, if_true] at h
        simp [hc, ih rest1 r h]
      · simp [matchChars, hc] at h

theorem tryMoveWord_spec (word : String) (pos : Nat) (rest : List Char)
    (p1 : Nat) (r1 : List Char) (h : tryMoveWord word pos rest = some (p1, r1)) :
    rest = word.toList ++ r1 ∧
      ∀ c, r1.head? = some c → isAlphanumericChar c = false := by
  unfold tryMoveWord at h
  split at h
  · exact absurd h (by simp)
  · rename_i rest1 hm
    split at h
    · rename_i nc hh
      split at h
      · exact absurd h (by simp)
      · rename_i ha
        simp only [Option.some.injEq, Prod.mk.injEq] at h
        obtain ⟨_, hr⟩ := h
        subst hr
        refine ⟨matchChars_spec _ _ _ hm, ?_⟩
        intro c hc
        rw [hh] at hc
        simp only [Option.some.injEq] at hc
        subst hc
        simpa using ha
    · rename_i hh
      simp only [Option.some.injEq, Prod.mk.injEq] at h
      obtain ⟨_, hr⟩ := h
      subst hr
      refine ⟨matchChars_spec _ _ _ hm, ?_⟩
      intro c hc
      rw [hh] at hc
      cases hc

theorem commentLineLoop_spec :
    ∀ rest pos text t p r, commentLineLoop pos text rest = (t, p, r) →
      ∃ mid, rest = mid ++ r ∧ t.data = text.data ++ mid := by
  intro rest
  induction rest with
  | nil =>
    intro pos text t p r h
    simp only [commentLineLoop, Prod.mk.injEq] at h
    obtain ⟨ht, _, hr⟩ := h
    subst ht; subst hr
    exact ⟨[], rfl, by simp⟩
  | cons c rest1 ih =>
    intro pos text t p r h
    by_cases hc : c = '\n' ∨ (c = '\r' ∧ rest1.head? = some '\n')
    · simp only [commentLineLoop, hc, if_true, Prod.mk.injEq] at h
      obtain ⟨ht, _, hr⟩ := h
      subst ht; subst hr
      exact ⟨[], rfl, by simp⟩
    · simp only [commentLineLoop, hc, if_false] at h
      obtain ⟨mid, hrest, hdata⟩ := ih _ _ _ _ _ h
      exact ⟨c :: mid, by simp [hrest], by simp [hdata, data_push]⟩

theorem commentBlockLoop_ok_spec :
    ∀ rest sp pos text t p r, commentBlockLoop sp pos text rest = .ok (t, p, r) →
      ∃ mid, rest = mid ++ '*' :: '/' :: r ∧ t.data = text.data ++ mid := by
  intro rest
  induction rest with
  | nil =>
    intro sp pos text t p r h
    simp [commentBlockLoop] at h
  | cons c rest1 ih =>
    intro sp pos text t p r h
    by_cases hc : c = '*' ∧ rest1.head? = some '/'
    · obtain ⟨hstar, hslash⟩ := hc
      cases rest1 with
      | nil => simp at hslash
      | cons d rest2 =>
        simp only [List.head?_cons, Option.some.injEq] at hslash
        simp only [commentBlockLoop, hstar, hslash, and_self, if_true,
          List.head?_cons, List.tail_cons, Except.ok.injEq, Prod.mk.injEq] at h
        obtain ⟨ht, _, hr⟩ := h
        subst ht; subst hr
        exact ⟨[], by simp [hstar, hslash], by simp⟩
    · simp only [commentBlockLoop, hc, if_false] at h
      obtain ⟨mid, hrest, hdata⟩ := ih _ _ _ _ _ _ h
      exact ⟨c :: mid, by simp [hrest], by simp [hdata, data_push]⟩

theorem commentBlockLoop_error_spec :
    ∀ rest sp pos text e, commentBlockLoop sp pos text rest = .error e →
      e = ⟨sp, "Unterminated comment block."⟩ := by
  intro rest
  induction rest with
  | nil =>
    intro sp pos text e h
    simp only [commentBlockLoop, Except.error.injEq] at h
    exact h.symm
  | cons c rest1 ih =>
    intro sp pos text e h
    by_cases hc : c = '*' ∧ rest1.head? = some '/'
    · simp [commentBlockLoop, hc] at h
    · simp only [commentBlockLoop, hc, if_false] at h
      exact ih _ _ _ _ h


/-! ### Step lemmas for the string-literal loop

One equation per reachable branch of `parseStringLoop`, derived from its
definitional unfolding; the inductive proofs below rewrite with these. -/

theorem psl_nil (sp pos : Nat) (b : Bool) (text : String) :
    parseStringLoop sp pos b text [] =
      .error ⟨sp, "Unterminated string literal"⟩ := by
  rw [parseStringLoop.eq_def]

theorem psl_true_esc (sp pos : Nat) (text : String) (c : Char)
    (rest1 : List Char)
    (hesc : c = '"' ∨ c = '\\' ∨ c = '/' ∨ c = 'b' ∨ c = 'f' ∨ c = 'n' ∨
      c = 'r' ∨ c = 't') :
    parseStringLoop sp pos true text (c :: rest1) =
      parseStringLoop sp (pos + 1) false (text.push c) rest1 := by
  rw [parseStringLoop.eq_def]
  simp [hesc]

theorem psl_true_u4 (sp pos : Nat) (text : String) (h1 h2 h3 h4 : Char)
    (rest4 : List Char) :
    parseStringLoop sp pos true text ('u' :: h1 :: h2 :: h3 :: h4 :: rest4) =
      if isHexChar h1 && isHexChar h2 && isHexChar h3 && isHexChar h4 then
        parseStringLoop sp (pos + 5) false
          (((((text.push 'u').push h1).push h2).push h3).push h4) rest4
      else .error ⟨pos - 1, "Expected four hex digits."⟩ := by
  rw [parseStringLoop.eq_def]
  simp

theorem psl_true_u_short (sp pos : Nat) (text : String) (rest1 : List Char)
    (hshort : rest1.length < 4) :
    parseStringLoop sp pos true text ('u' :: rest1) =
      .error ⟨pos - 1, "Expected four hex digits."⟩ := by
  rw [parseStringLoop.eq_def]
  rcases rest1 with _ | ⟨a1, _ | ⟨a2, _ | ⟨a3, _ | ⟨a4, tl⟩⟩⟩⟩
  · simp
  · simp
  · simp
  · simp
  · exfalso
    simp only [List.length_cons] at hshort
    omega

theorem psl_true_invalid (sp pos : Nat) (text : String) (c : Char)
    (rest1 : List Char)
    (hesc : ¬(c = '"' ∨ c = '\\' ∨ c = '/' ∨ c = 'b' ∨ c = 'f' ∨ c = 'n' ∨
      c = 'r' ∨ c = 't')) (hu : ¬c = 'u') :
    parseStringLoop sp pos true text (c :: rest1) =
      .error ⟨sp, "Invalid escape."⟩ := by
  rw [parseStringLoop.eq_def]
  simp [if_neg hesc, if_neg hu]

theorem psl_false_quote (sp pos : Nat) (text : String) (rest1 : List Char) :
    parseStringLoop sp pos false text ('"' :: rest1) =
      .ok (text, pos + 1, rest1) := by
  rw [parseStringLoop.eq_def]
  simp

theorem psl_false_other (sp pos : Nat) (text : String) (c : Char)
    (rest1 : List Char) (hc : ¬c = '"') :
    parseStringLoop sp pos false text (c :: rest1) =
      parseStringLoop sp (pos + 1) (decide (c = '\\')) (text.push c) rest1 := by
  rw [parseStringLoop.eq_def]
  simp [if_neg hc]

/-! ### Lemmas about the string-literal loop -/

theorem parseStringLoop_ok_spec (sp pos : Nat) (b : Bool) (text : String)
    (rest : List Char) :
    ∀ t p r, parseStringLoop sp pos b text rest = .ok (t, p, r) →
      ∃ mid, rest = mid ++ '"' :: r ∧ t.data = text.data ++ mid := by
  induction pos, b, text, rest using parseStringLoop.induct sp with
  | case1 pos b text =>
    intro t p r h
    rw [psl_nil] at h
    cases h
  | case2 pos text c rest1 hesc ih =>
    intro t p r h
    rw [psl_true_esc sp pos text c rest1 hesc] at h
    obtain ⟨mid, hrest, hdata⟩ := ih _ _ _ h
    refine ⟨c :: mid, by simp [hrest], ?_⟩
    simp [hdata, data_push]
  | case3 pos text h1 h2 h3 h4 rest4 hhex hne ih =>
    intro t p r h
    rw [psl_true_u4, if_pos hhex] at h
    obtain ⟨mid, hrest, hdata⟩ := ih _ _ _ h
    refine ⟨'u' :: h1 :: h2 :: h3 :: h4 :: mid, by simp [hrest], ?_⟩
    simp [hdata, data_push]
  | case4 pos text h1 h2 h3 h4 rest4 hhex hne =>
    intro t p r h
    rw [psl_true_u4, if_neg hhex] at h
    cases h
  | case5 pos text rest1 hshort hne =>
    intro t p r h
    rcases rest1 with _ | ⟨a1, _ | ⟨a2, _ | ⟨a3, _ | ⟨a4, tl⟩⟩⟩⟩
    · rw [psl_true_u_short sp pos text _ (by simp)] at h; cases h
    · rw [psl_true_u_short sp pos text _ (by simp)] at h; cases h
    · rw [psl_true_u_short sp pos text _ (by simp)] at h; cases h
    · rw [psl_true_u_short sp pos text _ (by simp)] at h; cases h
    · exact absurd rfl (hshort a1 a2 a3 a4 tl)
  | case6 pos text c rest1 hesc hu =>
    intro t p r h
    rw [psl_true_invalid sp pos text c rest1 hesc hu] at h
    cases h
  | case7 pos b text rest1 hb =>
    intro t p r h
    have hb' : b = false := by cases b <;> simp_all
    subst hb'
    rw [psl_false_quote] at h
    simp only [Except.ok.injEq, Prod.mk.injEq] at h
    obtain ⟨ht, _, hr⟩ := h
    subst ht; subst hr
    exact ⟨[], rfl, by simp⟩
  | case8 pos b text c rest1 hb hc ih =>
    intro t p r h
    have hb' : b = false := by cases b <;> simp_all
    subst hb'
    rw [psl_false_other sp pos text c rest1 hc] at h
    obtain ⟨mid, hrest, hdata⟩ := ih _ _ _ h
    refine ⟨c :: mid, by simp [hrest], ?_⟩
    simp [hdata, data_push]

theorem parseStringLoop_error_spec (sp pos : Nat) (b : Bool) (text : String)
    (rest : List Char) :
    ∀ e, parseStringLoop sp pos b text rest = .error e →
      e.pos = sp ∨ e.message = "Expected four hex digits." := by
  induction pos, b, text, rest using parseStringLoop.induct sp with
  | case1 pos b text =>
    intro e h
    rw [psl_nil] at h
    cases h
    exact Or.inl rfl
  | case2 pos text c rest1 hesc ih =>
    intro e h
    rw [psl_true_esc sp pos text c rest1 hesc] at h
    exact ih _ h
  | case3 pos text h1 h2 h3 h4 rest4 hhex hne ih =>
    intro e h
    rw [psl_true_u4, if_pos hhex] at h
    exact ih _ h
  | case4 pos text h1 h2 h3 h4 rest4 hhex hne =>
    intro e h
    rw [psl_true_u4, if_neg hhex] at h
    cases h
    exact Or.inr rfl
  | case5 pos text rest1 hshort hne =>
    intro e h
    rcases rest1 with _ | ⟨a1, _ | ⟨a2, _ | ⟨a3, _ | ⟨a4, tl⟩⟩⟩⟩
    · rw [psl_true_u_short sp pos text _ (by simp)] at h
      cases h
      exact Or.inr rfl
    · rw [psl_true_u_short sp pos text _ (by simp)] at h
      cases h
      exact Or.inr rfl
    · rw [psl_true_u_short sp pos text _ (by simp)] at h
      cases h
      exact Or.inr rfl
    · rw [psl_true_u_short sp pos text _ (by simp)] at h
      cases h
      exact Or.inr rfl
    · exact absurd rfl (hshort a1 a2 a3 a4 tl)
  | case6 pos text c rest1 hesc hu =>
    intro e h
    rw [psl_true_invalid sp pos text c rest1 hesc hu] at h
    cases h
    exact Or.inl rfl
  | case7 pos b text rest1 hb =>
    intro e h
    have hb' : b = false := by cases b <;> simp_all
    subst hb'
    rw [psl_false_quote] at h
    cases h
  | case8 pos b text c rest1 hb hc ih =>
    intro e h
    have hb' : b = false := by cases b <;> simp_all
    subst hb'
    rw [psl_false_other sp pos text c rest1 hc] at h
    exact ih _ h

theorem parseStringLoop_unterminated_spec (sp pos : Nat) (b : Bool)
    (text : String) (rest : List Char) :
    stringBodyRunsToEOI b rest = true →
      parseStringLoop sp pos b text rest =
        .error ⟨sp, "Unterminated string literal"⟩ := by
  induction pos, b, text, rest using parseStringLoop.induct sp with
  | case1 pos b text =>
    intro _
    rw [psl_nil]
  | case2 pos text c rest1 hesc ih =>
    intro hrun
    rw [stringBodyRunsToEOI.eq_def] at hrun
    simp only [hesc, if_true] at hrun
    rw [psl_true_esc sp pos text c rest1 hesc]
    exact ih hrun
  | case3 pos text h1 h2 h3 h4 rest4 hhex hne ih =>
    intro hrun
    rw [stringBodyRunsToEOI.eq_def] at hrun
    simp only [if_neg hne, if_pos rfl, if_true] at hrun
    rw [psl_true_u4, if_pos hhex]
    have h5 : stringBodyRunsToEOI false rest4 = true := by
      cases hx : stringBodyRunsToEOI false rest4
      · rw [hx] at hrun
        simp at hrun
      · rfl
    exact ih h5
  | case4 pos text h1 h2 h3 h4 rest4 hhex hne =>
    intro hrun
    rw [stringBodyRunsToEOI.eq_def] at hrun
    simp only [if_neg hne, if_pos rfl, if_true] at hrun
    have hhex' : (isHexChar h1 && isHexChar h2 && isHexChar h3 &&
        isHexChar h4) = true := by
      cases hx : (isHexChar h1 && isHexChar h2 && isHexChar h3 && isHexChar h4)
      · rw [hx] at hrun
        simp at hrun
      · rfl
    exact absurd hhex' hhex
  | case5 pos text rest1 hshort hne =>
    intro hrun
    rw [stringBodyRunsToEOI.eq_def] at hrun
    rcases rest1 with _ | ⟨a1, _ | ⟨a2, _ | ⟨a3, _ | ⟨a4, tl⟩⟩⟩⟩
    · simp [if_neg hne] at hrun
    · simp [if_neg hne] at hrun
    · simp [if_neg hne] at hrun
    · simp [if_neg hne] at hrun
    · exact absurd rfl (hshort a1 a2 a3 a4 tl)
  | case6 pos text c rest1 hesc hu =>
    intro hrun
    rw [stringBodyRunsToEOI.eq_def] at hrun
    simp [if_neg hesc, hu] at hrun
  | case7 pos b text rest1 hb =>
    intro hrun
    have hb' : b = false := by cases b <;> simp_all
    subst hb'
    rw [stringBodyRunsToEOI.eq_def] at hrun
    simp at hrun
  | case8 pos b text c rest1 hb hc ih =>
    intro hrun
    have hb' : b = false := by cases b <;> simp_all
    subst hb'
    rw [stringBodyRunsToEOI.eq_def] at hrun
    simp only [if_neg hc] at hrun
    rw [psl_false_other sp pos text c rest1 hc]
    exact ih hrun

theorem parseStringLoop_prefix (sp : Nat) (suffix : List Char) (b : Bool)
    (pre : List Char) :
    ∀ b2, stringBodyStep b pre = some b2 →
      ∀ pos text, ∃ text2,
        parseStringLoop sp pos b text (pre ++ suffix) =
          parseStringLoop sp (pos + pre.length) b2 text2 suffix := by
  induction b, pre using stringBodyStep.induct with
  | case1 b =>
    intro b2 hstep pos text
    rw [stringBodyStep.eq_def] at hstep
    simp only [Option.some.injEq] at hstep
    subst hstep
    exact ⟨text, by simp⟩
  | case2 c rest1 hesc ih =>
    intro b2 hstep pos text
    rw [stringBodyStep.eq_def] at hstep
    simp only [hesc, if_true] at hstep
    obtain ⟨text2, hrec⟩ := ih b2 hstep (pos + 1) (text.push c)
    refine ⟨text2, ?_⟩
    simp only [List.cons_append]
    rw [psl_true_esc sp pos text c (rest1 ++ suffix) hesc, hrec]
    have harith : pos + 1 + rest1.length = pos + (c :: rest1).length := by
      simp only [List.length_cons]
      omega
    rw [harith]
  | case3 h1 h2 h3 h4 rest4 hhex hne ih =>
    intro b2 hstep pos text
    rw [stringBodyStep.eq_def] at hstep
    simp only [if_neg hne, if_pos rfl, if_pos hhex] at hstep
    obtain ⟨text2, hrec⟩ := ih b2 hstep (pos + 5)
      (((((text.push 'u').push h1).push h2).push h3).push h4)
    refine ⟨text2, ?_⟩
    simp only [List.cons_append]
    rw [psl_true_u4, if_pos hhex, hrec]
    have harith : pos + 5 + rest4.length =
        pos + ('u' :: h1 :: h2 :: h3 :: h4 :: rest4).length := by
      simp only [List.length_cons]
      omega
    rw [harith]
  | case4 h1 h2 h3 h4 rest4 hhex hne =>
    intro b2 hstep pos text
    rw [stringBodyStep.eq_def] at hstep
    simp only [if_neg hne, if_pos rfl, if_neg hhex] at hstep
    exact Option.noConfusion hstep
  | case5 rest1 hshort hne =>
    intro b2 hstep pos text
    rw [stringBodyStep.eq_def] at hstep
    rcases rest1 with _ | ⟨a1, _ | ⟨a2, _ | ⟨a3, _ | ⟨a4, tl⟩⟩⟩⟩
    · simp [if_neg hne] at hstep
    · simp [if_neg hne] at hstep
    · simp [if_neg hne] at hstep
    · simp [if_neg hne] at hstep
    · exact absurd rfl (hshort a1 a2 a3 a4 tl)
  | case6 c rest1 hesc hu =>
    intro b2 hstep pos text
    rw [stringBodyStep.eq_def] at hstep
    simp [if_neg hesc, hu] at hstep
  | case7 rest1 =>
    intro b2 hstep pos text
    rw [stringBodyStep.eq_def] at hstep
    simp at hstep
  | case8 c rest1 hc ih =>
    intro b2 hstep pos text
    rw [stringBodyStep.eq_def] at hstep
    simp only [if_neg hc] at hstep
    obtain ⟨text2, hrec⟩ := ih b2 hstep (pos + 1) (text.push c)
    refine ⟨text2, ?_⟩
    simp only [List.cons_append]
    rw [psl_false_other sp pos text c (rest1 ++ suffix) hc, hrec]
    have harith : pos + 1 + rest1.length = pos + (c :: rest1).length := by
      simp only [List.length_cons]
      omega
    rw [harith]

theorem parseStringLoop_hex_error (qp : Nat) (pre tail : List Char)
    (hpre : stringBodyStep false pre = some false)
    (h4 : firstFourHex tail = false) :
    parseStringLoop qp (qp + 1) false "" (pre ++ '\\' :: 'u' :: tail) =
      .error ⟨qp + 1 + pre.length, "Expected four hex digits."⟩ := by
  obtain ⟨text2, hpl⟩ :=
    parseStringLoop_prefix qp ('\\' :: 'u' :: tail) false pre false hpre
      (qp + 1) ""
  rw [hpl, psl_false_other qp (qp + 1 + pre.length) text2 '\\' ('u' :: tail)
    (by decide)]
  show parseStringLoop qp (qp + 1 + pre.length + 1) true (text2.push '\\')
      ('u' :: tail) = .error ⟨qp + 1 + pre.length, "Expected four hex digits."⟩
  have harith : qp + 1 + pre.length + 1 - 1 = qp + 1 + pre.length := by omega
  rcases tail with _ | ⟨a, _ | ⟨b, _ | ⟨c, _ | ⟨d, tl⟩⟩⟩⟩
  · rw [psl_true_u_short _ _ _ [] (by decide), harith]
  · rw [psl_true_u_short _ _ _ [a] (by simp), harith]
  · rw [psl_true_u_short _ _ _ [a, b] (by simp), harith]
  · rw [psl_true_u_short _ _ _ [a, b, c] (by simp), harith]
  · have hb : (isHexChar a && isHexChar b && isHexChar c && isHexChar d) =
        false := h4
    rw [psl_true_u4, if_neg (by simp [hb]), harith]


/-! ### Lemmas about the number grammar checker -/

theorem chompDigits_all (l : List Char) (h : ∀ c ∈ l, isDigitChar c = true) :
    chompDigits l = [] := by
  induction l with
  | nil => rfl
  | cons c rest ih =>
    have hc : isDigitChar c = true := h c (List.mem_cons_self c rest)
    simp only [chompDigits, hc, if_true]
    exact ih (fun x hx => h x (List.mem_cons_of_mem c hx))

theorem chompDigits_append (ds rest : List Char)
    (hds : ∀ c ∈ ds, isDigitChar c = true)
    (hrest : ∀ c, rest.head? = some c → isDigitChar c = false) :
    chompDigits (ds ++ rest) = rest := by
  induction ds with
  | nil =>
    cases rest with
    | nil => rfl
    | cons c r1 =>
      have hc := hrest c rfl
      simp [chompDigits, hc]
  | cons d ds1 ih =>
    have hd : isDigitChar d = true := hds d (List.mem_cons_self d ds1)
    simp only [List.cons_append, chompDigits, hd, if_true]
    exact ih (fun x hx => hds x (List.mem_cons_of_mem d hx))

theorem numberExpPart_shape (ch sg d : Char) (ds : List Char)
    (hch : ch = 'e' ∨ ch = 'E') (hsg : sg = '-' ∨ sg = '+')
    (hd : isDigitChar d = true) (hds : ∀ c ∈ ds, isDigitChar c = true) :
    numberExpPart (ch :: sg :: d :: ds) = true := by
  have hsg2 : sg = '+' ∨ sg = '-' := hsg.symm
  rw [numberExpPart.eq_def]
  simp [hch, hsg2, hd, chompDigits_all ds hds]

/-- The two shapes an exponent part produced by `parseExp` can have. -/
def ExpShape (em : List Char) : Prop :=
  em = [] ∨ ∃ ch sg d ds, em = ch :: sg :: d :: ds ∧ (ch = 'e' ∨ ch = 'E') ∧
    (sg = '-' ∨ sg = '+') ∧ isDigitChar d = true ∧ ∀ c ∈ ds, isDigitChar c = true

/-- The two shapes a fraction part produced by `parseFrac` can have. -/
def FracShape (fm : List Char) : Prop :=
  fm = [] ∨ ∃ d ds, fm = '.' :: d :: ds ∧ isDigitChar d = true ∧
    ∀ c ∈ ds, isDigitChar c = true

theorem expShape_head (em : List Char) (hem : ExpShape em) :
    ∀ c, em.head? = some c → isDigitChar c = false := by
  rcases hem with rfl | ⟨ch, sg, d, ds, rfl, hch, _, _, _⟩
  · intro c hc
    cases hc
  · intro c hc
    simp only [List.head?_cons, Option.some.injEq] at hc
    subst hc
    rcases hch with rfl | rfl <;> decide

theorem numberExpPart_of_shape (em : List Char) (hem : ExpShape em) :
    numberExpPart em = true := by
  rcases hem with rfl | ⟨ch, sg, d, ds, rfl, hch, hsg, hd, hds⟩
  · rfl
  · exact numberExpPart_shape ch sg d ds hch hsg hd hds

theorem numberFracExp_assemble (fm em : List Char) (hfm : FracShape fm)
    (hem : ExpShape em) : numberFracExp (fm ++ em) = true := by
  rcases hfm with rfl | ⟨d, ds, rfl, hd, hds⟩
  · rcases hem with rfl | ⟨ch, sg, d, ds, rfl, hch, hsg, hd, hds⟩
    · rfl
    · have hne := numberExpPart_shape ch sg d ds hch hsg hd hds
      rcases hch with rfl | rfl
      · rw [numberFracExp.eq_def]
        simpa using hne
      · rw [numberFracExp.eq_def]
        simpa using hne
  · have hc : chompDigits (ds ++ em) = em :=
      chompDigits_append ds em hds (expShape_head em hem)
    rw [List.cons_append, List.cons_append, numberFracExp.eq_def]
    simp [hd, hc, numberExpPart_of_shape em hem]

theorem isOneNineChar_ne_zero (c : Char) (hc : isOneNineChar c = true) :
    ¬c = '0' := by
  intro h
  subst h
  exact absurd hc (by decide)

theorem isOneNineChar_ne_minus (c : Char) (hc : isOneNineChar c = true) :
    ¬c = '-' := by
  intro h
  subst h
  exact absurd hc (by decide)

/-- The shape of the integer part produced by `parseNumberInt`. -/
def IntShape (ip : List Char) : Prop :=
  ip = ['0'] ∨ ∃ c ds, ip = c :: ds ∧ isOneNineChar c = true ∧
    ∀ x ∈ ds, isDigitChar x = true

theorem stripMinus_minus (l : List Char) : stripMinus ('-' :: l) = l := rfl

theorem stripMinus_ne (c : Char) (r : List Char) (hc : ¬c = '-') :
    stripMinus (c :: r) = c :: r := by
  rw [stripMinus.eq_def]
  split
  · rename_i heq
    simp only [List.cons.injEq] at heq
    exact absurd heq.1 hc
  · rfl

theorem numberIntFracExp_zero (r : List Char) :
    numberIntFracExp ('0' :: r) = numberFracExp r := rfl

theorem numberIntFracExp_onenine (c : Char) (r : List Char)
    (hc : isOneNineChar c = true) :
    numberIntFracExp (c :: r) = numberFracExp (chompDigits r) := by
  rw [numberIntFracExp.eq_def]
  split
  · rename_i heq
    simp only [List.cons.injEq] at heq
    exact absurd (heq.1 ▸ hc) (by decide)
  · rename_i c3 r3 hne0 heq
    simp only [List.cons.injEq] at heq
    obtain ⟨h1, h2⟩ := heq
    subst h1
    subst h2
    simp [hc]
  · rename_i heq
    cases heq

theorem matchesNumberGrammar_assemble (sign ip fe : List Char)
    (hsign : sign = [] ∨ sign = ['-']) (hip : IntShape ip)
    (hfe : numberFracExp fe = true)
    (hfehd : ∀ c, fe.head? = some c → isDigitChar c = false) :
    matchesNumberGrammar (sign ++ ip ++ fe) = true := by
  have core : numberIntFracExp (ip ++ fe) = true := by
    rcases hip with rfl | ⟨c, ds, rfl, hc, hds⟩
    · rw [List.cons_append, List.nil_append, numberIntFracExp_zero]
      exact hfe
    · rw [List.cons_append, numberIntFracExp_onenine c _ hc,
        chompDigits_append ds fe hds hfehd]
      exact hfe
  rcases hsign with rfl | rfl
  · rw [List.nil_append, matchesNumberGrammar]
    have hhd : stripMinus (ip ++ fe) = ip ++ fe := by
      rcases hip with rfl | ⟨c, ds, rfl, hc, _⟩
      · rw [List.cons_append, List.nil_append]
        exact stripMinus_ne '0' fe (by decide)
      · rw [List.cons_append]
        exact stripMinus_ne c _ (isOneNineChar_ne_minus c hc)
    rw [hhd]
    exact core
  · rw [matchesNumberGrammar, List.cons_append, List.nil_append,
      List.cons_append, stripMinus_minus]
    exact core

/-! ### Lemmas about the number parser -/

theorem string_eq_of_data (s : String) (l : List Char) (h : s.data = l) :
    s = ⟨l⟩ := by
  cases s with
  | mk d => exact congrArg String.mk h

theorem fracExp_head (fm em : List Char) (hfm : FracShape fm)
    (hem : ExpShape em) :
    ∀ c, (fm ++ em).head? = some c → isDigitChar c = false := by
  rcases hfm with rfl | ⟨d, ds, rfl, _, _⟩
  · simpa using expShape_head em hem
  · intro c hc
    simp only [List.cons_append, List.head?_cons, Option.some.injEq] at hc
    subst hc
    decide

theorem parseFrac_spec (text : String) (pos : Nat) (rest : List Char)
    (t : String) (p : Nat) (r : List Char)
    (h : parseFrac text pos rest = .ok (t, p, r)) :
    ∃ fm, FracShape fm ∧ t.data = text.data ++ fm ∧ rest = fm ++ r := by
  rcases rest with _ | ⟨c0, rr⟩
  · have hv : parseFrac text pos [] = .ok (text, pos, []) := rfl
    rw [hv] at h
    simp only [Except.ok.injEq, Prod.mk.injEq] at h
    obtain ⟨h1, _, h3⟩ := h
    exact ⟨[], Or.inl rfl, by simp [← h1], by simp [← h3]⟩
  · by_cases hdot : c0 = '.'
    · subst hdot
      rcases rr with _ | ⟨d, rr2⟩
      · have hv : parseFrac text pos ['.'] =
            .error ⟨pos + 1, "Expected a digit."⟩ := rfl
        rw [hv] at h
        cases h
      · by_cases hd : isDigitChar d = true
        · have hv : parseFrac text pos ('.' :: d :: rr2) =
              .ok (takeDigits (pos + 1) (text.push '.') (d :: rr2)) := by
            simp [parseFrac, hd]
          rw [hv] at h
          simp only [Except.ok.injEq] at h
          obtain ⟨mid, hrest, hdata, hdig, hhead⟩ :=
            takeDigits_spec (d :: rr2) _ _ _ _ _ h
          rcases mid with _ | ⟨m0, ms⟩
          · rw [List.nil_append] at hrest
            have := hhead d (by rw [← hrest]; rfl)
            exact absurd hd (by simp [this])
          · refine ⟨'.' :: m0 :: ms,
              Or.inr ⟨m0, ms, rfl, hdig m0 (by simp),
                fun x hx => hdig x (by simp [hx])⟩, ?_, ?_⟩
            · rw [hdata, data_push]
              simp
            · simp [hrest]
        · have hv : parseFrac text pos ('.' :: d :: rr2) =
              .error ⟨pos + 1, "Expected a digit."⟩ := by
            simp [parseFrac, hd]
          rw [hv] at h
          cases h
    · have hv : parseFrac text pos (c0 :: rr) = .ok (text, pos, c0 :: rr) := by
        simp [parseFrac, hdot]
      rw [hv] at h
      simp only [Except.ok.injEq, Prod.mk.injEq] at h
      obtain ⟨h1, _, h3⟩ := h
      exact ⟨[], Or.inl rfl, by simp [← h1], by simp [← h3]⟩

theorem parseExp_spec (text : String) (pos : Nat) (rest : List Char)
    (t : String) (p : Nat) (r : List Char)
    (h : parseExp text pos rest = .ok (t, p, r)) :
    ∃ em, ExpShape em ∧ t.data = text.data ++ em ∧ rest = em ++ r := by
  rcases rest with _ | ⟨c0, rr⟩
  · have hv : parseExp text pos [] = .ok (text, pos, []) := rfl
    rw [hv] at h
    simp only [Except.ok.injEq, Prod.mk.injEq] at h
    obtain ⟨h1, _, h3⟩ := h
    exact ⟨[], Or.inl rfl, by simp [← h1], by simp [← h3]⟩
  · by_cases hce : c0 = 'e' ∨ c0 = 'E'
    · rcases rr with _ | ⟨s0, r2⟩
      · have hv : parseExp text pos [c0] =
            .error ⟨pos + 1,
              "Expected plus or minus symbol in number literal."⟩ := by
          simp [parseExp, hce]
        rw [hv] at h
        cases h
      · by_cases hs : s0 = '-' ∨ s0 = '+'
        · rcases r2 with _ | ⟨d0, r3⟩
          · have hv : parseExp text pos [c0, s0] =
                .error ⟨pos + 2, "Expected a digit."⟩ := by
              simp [parseExp, hce, hs]
            rw [hv] at h
            cases h
          · by_cases hd : isDigitChar d0 = true
            · have hv : parseExp text pos (c0 :: s0 :: d0 :: r3) =
                  .ok (takeDigits (pos + 2) ((text.push c0).push s0)
                    (d0 :: r3)) := by
                simp [parseExp, hce, hs, hd]
              rw [hv] at h
              simp only [Except.ok.injEq] at h
              obtain ⟨mid, hrest, hdata, hdig, hhead⟩ :=
                takeDigits_spec (d0 :: r3) _ _ _ _ _ h
              rcases mid with _ | ⟨m0, ms⟩
              · rw [List.nil_append] at hrest
                have := hhead d0 (by rw [← hrest]; rfl)
                exact absurd hd (by simp [this])
              · refine ⟨c0 :: s0 :: m0 :: ms,
                  Or.inr ⟨c0, s0, m0, ms, rfl, hce, hs, hdig m0 (by simp),
                    fun x hx => hdig x (by simp [hx])⟩, ?_, ?_⟩
                · rw [hdata, data_push, data_push]
                  simp
                · simp [hrest]
            · have hv : parseExp text pos (c0 :: s0 :: d0 :: r3) =
                  .error ⟨pos + 2, "Expected a digit."⟩ := by
                simp [parseExp, hce, hs, hd]
              rw [hv] at h
              cases h
        · have hv : parseExp text pos (c0 :: s0 :: r2) =
              .error ⟨pos + 1,
                "Expected plus or minus symbol in number literal."⟩ := by
            simp [parseExp, hce, hs]
          rw [hv] at h
          cases h
    · have hv : parseExp text pos (c0 :: rr) = .ok (text, pos, c0 :: rr) := by
        simp [parseExp, hce]
      rw [hv] at h
      simp only [Except.ok.injEq, Prod.mk.injEq] at h
      obtain ⟨h1, _, h3⟩ := h
      exact ⟨[], Or.inl rfl, by simp [← h1], by simp [← h3]⟩

theorem parseNumberTail_spec (text : String) (pos : Nat) (rest : List Char)
    (tk : Token) (p : Nat) (r : List Char)
    (h : parseNumberTail text pos rest = .ok (tk, p, r)) :
    ∃ fe, tk = .number ⟨text.data ++ fe⟩ ∧ rest = fe ++ r ∧
      numberFracExp fe = true ∧
      ∀ c, fe.head? = some c → isDigitChar c = false := by
  rcases heq1 : parseFrac text pos rest with e1 | ⟨t1, p1, r1⟩
  · have hv : parseNumberTail text pos rest = .error e1 := by
      unfold parseNumberTail
      rw [heq1]
    rw [hv] at h
    cases h
  · rcases heq2 : parseExp t1 p1 r1 with e2 | ⟨t2, p2, r2⟩
    · have hv : parseNumberTail text pos rest = .error e2 := by
        unfold parseNumberTail
        rw [heq1]
        simp [heq2]
      rw [hv] at h
      cases h
    · have hv : parseNumberTail text pos rest =
          .ok (.number t2, p2, r2) := by
        unfold parseNumberTail
        rw [heq1]
        simp [heq2]
      rw [hv] at h
      simp only [Except.ok.injEq, Prod.mk.injEq] at h
      obtain ⟨htk, _, hr⟩ := h
      subst hr
      obtain ⟨fm, hfms, hfmd, hfmr⟩ := parseFrac_spec _ _ _ _ _ _ heq1
      obtain ⟨em, hems, hemd, hemr⟩ := parseExp_spec _ _ _ _ _ _ heq2
      refine ⟨fm ++ em, ?_, ?_, numberFracExp_assemble fm em hfms hems,
        fracExp_head fm em hfms hems⟩
      · rw [← htk]
        have ht2 : t2 = ⟨text.data ++ (fm ++ em)⟩ := by
          apply string_eq_of_data
          rw [hemd, hfmd, List.append_assoc]
        rw [ht2]
      · rw [hfmr, hemr, List.append_assoc]

theorem parseNumberInt_spec (text : String) (pos : Nat) (rest : List Char)
    (tk : Token) (p : Nat) (r : List Char)
    (h : parseNumberInt text pos rest = .ok (tk, p, r)) :
    ∃ ip fe, IntShape ip ∧ tk = .number ⟨text.data ++ ip ++ fe⟩ ∧
      rest = ip ++ fe ++ r ∧ numberFracExp fe = true ∧
      ∀ c, fe.head? = some c → isDigitChar c = false := by
  rcases rest with _ | ⟨c0, rr⟩
  · have hv : parseNumberInt text pos [] =
        .error ⟨pos, "Expected a digit to follow a negative sign."⟩ := rfl
    rw [hv] at h
    cases h
  · by_cases hz : isZeroChar c0 = true
    · have hc0 : c0 = '0' := by simpa [isZeroChar] using hz
      subst hc0
      have hv : parseNumberInt text pos ('0' :: rr) =
          parseNumberTail (text.push '0') (pos + 1) rr := by
        simp [parseNumberInt, isZeroChar]
      rw [hv] at h
      obtain ⟨fe, htk, hrr, hfe, hfehd⟩ := parseNumberTail_spec _ _ _ _ _ _ h
      refine ⟨['0'], fe, Or.inl rfl, ?_, ?_, hfe, hfehd⟩
      · rw [htk]
        rfl
      · simp [hrr]
    · by_cases h19 : isOneNineChar c0 = true
      · rcases htd : takeDigits (pos + 1) (text.push c0) rr with ⟨t1, p1, r1⟩
        have hv : parseNumberInt text pos (c0 :: rr) =
            parseNumberTail t1 p1 r1 := by
          simp [parseNumberInt, hz, h19, htd]
        rw [hv] at h
        obtain ⟨mid, hrr, hdata, hdig, _⟩ := takeDigits_spec rr _ _ _ _ _ htd
        obtain ⟨fe, htk, hr1, hfe, hfehd⟩ := parseNumberTail_spec _ _ _ _ _ _ h
        refine ⟨c0 :: mid, fe, Or.inr ⟨c0, mid, rfl, h19, hdig⟩, ?_, ?_, hfe,
          hfehd⟩
        · rw [htk]
          congr 1
          apply string_eq_of_data
          rw [hdata, data_push]
          simp
        · simp [hrr, hr1]
      · have hv : parseNumberInt text pos (c0 :: rr) =
            .error ⟨pos, "Expected a digit to follow a negative sign."⟩ := by
          simp [parseNumberInt, hz, h19]
        rw [hv] at h
        cases h

theorem parseNumber_spec (pos : Nat) (rest : List Char) (tk : Token) (p : Nat)
    (r : List Char) (h : parseNumber pos rest = .ok (tk, p, r)) :
    ∃ s, tk = .number s ∧ rest = s.data ++ r ∧ s.data ≠ [] ∧
      matchesNumberGrammar s.data = true := by
  rcases rest with _ | ⟨c0, rr⟩
  · have hv : parseNumber pos [] =
        .error ⟨pos, "Expected a digit to follow a negative sign."⟩ := rfl
    rw [hv] at h
    cases h
  · by_cases hminus : c0 = '-'
    · subst hminus
      have hv : parseNumber pos ('-' :: rr) =
          parseNumberInt "-" (pos + 1) rr := by
        simp [parseNumber]
      rw [hv] at h
      obtain ⟨ip, fe, hips, htk, hrr, hfe, hfehd⟩ :=
        parseNumberInt_spec _ _ _ _ _ _ h
      refine ⟨⟨"-".data ++ ip ++ fe⟩, htk, ?_, ?_, ?_⟩
      · simp [hrr]
      · rcases hips with rfl | ⟨c, ds, rfl, _, _⟩ <;> simp
      · exact matchesNumberGrammar_assemble ['-'] ip fe (Or.inr rfl) hips hfe
          hfehd
    · have hv : parseNumber pos (c0 :: rr) =
          parseNumberInt "" pos (c0 :: rr) := by
        simp [parseNumber, hminus]
      rw [hv] at h
      obtain ⟨ip, fe, hips, htk, hrest, hfe, hfehd⟩ :=
        parseNumberInt_spec _ _ _ _ _ _ h
      refine ⟨⟨"".data ++ ip ++ fe⟩, htk, ?_, ?_, ?_⟩
      · simp [hrest]
      · rcases hips with rfl | ⟨c, ds, rfl, _, _⟩ <;> simp
      · have := matchesNumberGrammar_assemble [] ip fe (Or.inl rfl) hips hfe
          hfehd
        simpa using this

theorem parseFrac_error_spec (text : String) (pos : Nat) (rest : List Char)
    (e : TokenError) (h : parseFrac text pos rest = .error e) :
    e.message = "Expected a digit." := by
  rcases rest with _ | ⟨c0, rr⟩
  · cases h
  · by_cases hdot : c0 = '.'
    · subst hdot
      rcases rr with _ | ⟨d, rr2⟩
      · have hv : parseFrac text pos ['.'] =
            .error ⟨pos + 1, "Expected a digit."⟩ := rfl
        rw [hv] at h
        cases h
        rfl
      · by_cases hd : isDigitChar d = true
        · have hv : parseFrac text pos ('.' :: d :: rr2) =
              .ok (takeDigits (pos + 1) (text.push '.') (d :: rr2)) := by
            simp [parseFrac, hd]
          rw [hv] at h
          cases h
        · have hv : parseFrac text pos ('.' :: d :: rr2) =
              .error ⟨pos + 1, "Expected a digit."⟩ := by
            simp [parseFrac, hd]
          rw [hv] at h
          cases h
          rfl
    · have hv : parseFrac text pos (c0 :: rr) = .ok (text, pos, c0 :: rr) := by
        simp [parseFrac, hdot]
      rw [hv] at h
      cases h

theorem parseExp_error_spec (text : String) (pos : Nat) (rest : List Char)
    (e : TokenError) (h : parseExp text pos rest = .error e) :
    e.message = "Expected a digit." ∨
      e.message = "Expected plus or minus symbol in number literal." := by
  rcases rest with _ | ⟨c0, rr⟩
  · cases h
  · by_cases hce : c0 = 'e' ∨ c0 = 'E'
    · rcases rr with _ | ⟨s0, r2⟩
      · have hv : parseExp text pos [c0] =
            .error ⟨pos + 1,
              "Expected plus or minus symbol in number literal."⟩ := by
          simp [parseExp, hce]
        rw [hv] at h
        cases h
        exact Or.inr rfl
      · by_cases hs : s0 = '-' ∨ s0 = '+'
        · rcases r2 with _ | ⟨d0, r3⟩
          · have hv : parseExp text pos [c0, s0] =
                .error ⟨pos + 2, "Expected a digit."⟩ := by
              simp [parseExp, hce, hs]
            rw [hv] at h
            cases h
            exact Or.inl rfl
          · by_cases hd : isDigitChar d0 = true
            · have hv : parseExp text pos (c0 :: s0 :: d0 :: r3) =
                  .ok (takeDigits (pos + 2) ((text.push c0).push s0)
                    (d0 :: r3)) := by
                simp [parseExp, hce, hs, hd]
              rw [hv] at h
              cases h
            · have hv : parseExp text pos (c0 :: s0 :: d0 :: r3) =
                  .error ⟨pos + 2, "Expected a digit."⟩ := by
                simp [parseExp, hce, hs, hd]
              rw [hv] at h
              cases h
              exact Or.inl rfl
        · have hv : parseExp text pos (c0 :: s0 :: r2) =
              .error ⟨pos + 1,
                "Expected plus or minus symbol in number literal."⟩ := by
            simp [parseExp, hce, hs]
          rw [hv] at h
          cases h
          exact Or.inr rfl
    · have hv : parseExp text pos (c0 :: rr) = .ok (text, pos, c0 :: rr) := by
        simp [parseExp, hce]
      rw [hv] at h
      cases h

theorem parseNumberTail_error_spec (text : String) (pos : Nat)
    (rest : List Char) (e : TokenError)
    (h : parseNumberTail text pos rest = .error e) :
    e.message = "Expected a digit." ∨
      e.message = "Expected plus or minus symbol in number literal." := by
  rcases heq1 : parseFrac text pos rest with e1 | ⟨t1, p1, r1⟩
  · have hv : parseNumberTail text pos rest = .error e1 := by
      unfold parseNumberTail
      rw [heq1]
    rw [hv] at h
    cases h
    exact Or.inl (parseFrac_error_spec _ _ _ _ heq1)
  · rcases heq2 : parseExp t1 p1 r1 with e2 | ⟨t2, p2, r2⟩
    · have hv : parseNumberTail text pos rest = .error e2 := by
        unfold parseNumberTail
        rw [heq1]
        simp [heq2]
      rw [hv] at h
      cases h
      exact parseExp_error_spec _ _ _ _ heq2
    · have hv : parseNumberTail text pos rest =
          .ok (.number t2, p2, r2) := by
        unfold parseNumberTail
        rw [heq1]
        simp [heq2]
      rw [hv] at h
      cases h

theorem parseNumberInt_error_spec (text : String) (pos : Nat)
    (rest : List Char) (e : TokenError)
    (h : parseNumberInt text pos rest = .error e) :
    e.message = "Expected a digit to follow a negative sign." ∨
      e.message = "Expected a digit." ∨
      e.message = "Expected plus or minus symbol in number literal." := by
  rcases rest with _ | ⟨c0, rr⟩
  · have hv : parseNumberInt text pos [] =
        .error ⟨pos, "Expected a digit to follow a negative sign."⟩ := rfl
    rw [hv] at h
    cases h
    exact Or.inl rfl
  · by_cases hz : isZeroChar c0 = true
    · have hc0 : c0 = '0' := by simpa [isZeroChar] using hz
      subst hc0
      have hv : parseNumberInt text pos ('0' :: rr) =
          parseNumberTail (text.push '0') (pos + 1) rr := by
        simp [parseNumberInt, isZeroChar]
      rw [hv] at h
      exact Or.inr (parseNumberTail_error_spec _ _ _ _ h)
    · by_cases h19 : isOneNineChar c0 = true
      · rcases htd : takeDigits (pos + 1) (text.push c0) rr with ⟨t1, p1, r1⟩
        have hv : parseNumberInt text pos (c0 :: rr) =
            parseNumberTail t1 p1 r1 := by
          simp [parseNumberInt, hz, h19, htd]
        rw [hv] at h
        exact Or.inr (parseNumberTail_error_spec _ _ _ _ h)
      · have hv : parseNumberInt text pos (c0 :: rr) =
            .error ⟨pos, "Expected a digit to follow a negative sign."⟩ := by
          simp [parseNumberInt, hz, h19]
        rw [hv] at h
        cases h
        exact Or.inl rfl

theorem parseNumber_error_spec (pos : Nat) (rest : List Char) (e : TokenError)
    (h : parseNumber pos rest = .error e) :
    e.message = "Expected a digit to follow a negative sign." ∨
      e.message = "Expected a digit." ∨
      e.message = "Expected plus or minus symbol in number literal." := by
  rcases rest with _ | ⟨c0, rr⟩
  · have hv : parseNumber pos [] = parseNumberInt "" pos [] := rfl
    rw [hv] at h
    exact parseNumberInt_error_spec _ _ _ _ h
  · by_cases hminus : c0 = '-'
    · subst hminus
      have hv : parseNumber pos ('-' :: rr) =
          parseNumberInt "-" (pos + 1) rr := by
        simp [parseNumber]
      rw [hv] at h
      exact parseNumberInt_error_spec _ _ _ _ h
    · have hv : parseNumber pos (c0 :: rr) =
          parseNumberInt "" pos (c0 :: rr) := by
        simp [parseNumber, hminus]
      rw [hv] at h
      exact parseNumberInt_error_spec _ _ _ _ h


/-! ### Decomposition of one `move_next` call -/

theorem moveNext_eq (pos : Nat) (rest : List Char) :
    moveNext pos rest =
      dispatch (skipWhitespace pos rest).1 (skipWhitespace pos rest).2 := by
  unfold moveNext
  rcases hs : skipWhitespace pos rest with ⟨a, b⟩
  rfl

/-- The payload invariant a produced token satisfies: a `Number` payload is
nonempty and matches the claimed number grammar. -/
def tokenGrammarInv : Token → Prop
  | .number s => s.data ≠ [] ∧ matchesNumberGrammar s.data = true
  | _ => True

theorem dispatch_ok_spec (ts : Nat) (rest1 : List Char) (ot : Option Token)
    (p : Nat) (rest2 : List Char) (h : dispatch ts rest1 = .ok (ot, p, rest2)) :
    (∃ t, ot = some t ∧ rest1 = renderToken t ++ rest2 ∧ renderToken t ≠ [] ∧
        tokenGrammarInv t) ∨
      (ot = none ∧ rest1 = [] ∧ rest2 = []) := by
  rcases rest1 with _ | ⟨c, rr⟩
  · have hv : dispatch ts [] = .ok (none, ts, []) := rfl
    rw [hv] at h
    simp only [Except.ok.injEq, Prod.mk.injEq] at h
    obtain ⟨ho, _, hr⟩ := h
    exact Or.inr ⟨ho.symm, rfl, hr.symm⟩
  · by_cases h1 : c = '\x7b'
    · subst h1
      have hv : dispatch ts ('\x7b' :: rr) =
          .ok (some .openBrace, ts + 1, rr) := by
        simp [dispatch]
      rw [hv] at h
      simp only [Except.ok.injEq, Prod.mk.injEq] at h
      obtain ⟨ho, _, hr⟩ := h
      refine Or.inl ⟨.openBrace, ho.symm, ?_, by simp [renderToken], trivial⟩
      rw [← hr]
      rfl
    · by_cases h2 : c = '\x7d'
      · subst h2
        have hv : dispatch ts ('\x7d' :: rr) =
            .ok (some .closeBrace, ts + 1, rr) := by
          simp [dispatch]
        rw [hv] at h
        simp only [Except.ok.injEq, Prod.mk.injEq] at h
        obtain ⟨ho, _, hr⟩ := h
        refine Or.inl ⟨.closeBrace, ho.symm, ?_, by simp [renderToken], trivial⟩
        rw [← hr]
        rfl
      · by_cases h3 : c = '['
        · subst h3
          have hv : dispatch ts ('[' :: rr) =
              .ok (some .openBracket, ts + 1, rr) := by
            simp [dispatch]
          rw [hv] at h
          simp only [Except.ok.injEq, Prod.mk.injEq] at h
          obtain ⟨ho, _, hr⟩ := h
          refine Or.inl ⟨.openBracket, ho.symm, ?_, by simp [renderToken], trivial⟩
          rw [← hr]
          rfl
        · by_cases h4 : c = ']'
          · subst h4
            have hv : dispatch ts (']' :: rr) =
                .ok (some .closeBracket, ts + 1, rr) := by
              simp [dispatch]
            rw [hv] at h
            simp only [Except.ok.injEq, Prod.mk.injEq] at h
            obtain ⟨ho, _, hr⟩ := h
            refine Or.inl ⟨.closeBracket, ho.symm, ?_, by simp [renderToken], trivial⟩
            rw [← hr]
            rfl
          · by_cases h5 : c = ','
            · subst h5
              have hv : dispatch ts (',' :: rr) =
                  .ok (some .comma, ts + 1, rr) := by
                simp [dispatch]
              rw [hv] at h
              simp only [Except.ok.injEq, Prod.mk.injEq] at h
              obtain ⟨ho, _, hr⟩ := h
              refine Or.inl ⟨.comma, ho.symm, ?_, by simp [renderToken], trivial⟩
              rw [← hr]
              rfl
            · by_cases h6 : c = ':'
              · subst h6
                have hv : dispatch ts (':' :: rr) =
                    .ok (some .colon, ts + 1, rr) := by
                  simp [dispatch]
                rw [hv] at h
                simp only [Except.ok.injEq, Prod.mk.injEq] at h
                obtain ⟨ho, _, hr⟩ := h
                refine Or.inl ⟨.colon, ho.symm, ?_, by simp [renderToken], trivial⟩
                rw [← hr]
                rfl
              · by_cases h7 : c = '"'
                · subst h7
                  rcases hps : parseString ts rr with e | ⟨text, p1, r1⟩
                  · have hv : dispatch ts ('"' :: rr) = .error e := by
                      simp [dispatch, hps]
                    rw [hv] at h
                    cases h
                  · have hv : dispatch ts ('"' :: rr) =
                        .ok (some (.string text), p1, r1) := by
                      simp [dispatch, hps]
                    rw [hv] at h
                    simp only [Except.ok.injEq, Prod.mk.injEq] at h
                    obtain ⟨ho, _, hr⟩ := h
                    obtain ⟨mid, hmid, hdata⟩ :=
                      parseStringLoop_ok_spec ts (ts + 1) false "" rr _ _ _ hps
                    refine Or.inl ⟨.string text, ho.symm, ?_,
                      by simp [renderToken], trivial⟩
                    rw [← hr]
                    simp [renderToken, hmid, hdata]
                · by_cases h8 : c = '/'
                  · subst h8
                    rcases rr with _ | ⟨c2, rt⟩
                    · have hv : dispatch ts ['/'] =
                          .error ⟨ts, "Unexpected token."⟩ := by
                        simp [dispatch]
                      rw [hv] at h
                      cases h
                    · by_cases hc2 : c2 = '/'
                      · subst hc2
                        rcases hcl : commentLineLoop (ts + 2) "" rt with
                          ⟨text, p1, r1⟩
                        have hv : dispatch ts ('/' :: '/' :: rt) =
                            .ok (some (.commentLine text), p1, r1) := by
                          simp [dispatch, hcl]
                        rw [hv] at h
                        simp only [Except.ok.injEq, Prod.mk.injEq] at h
                        obtain ⟨ho, _, hr⟩ := h
                        obtain ⟨mid, hmid, hdata⟩ :=
                          commentLineLoop_spec rt _ _ _ _ _ hcl
                        refine Or.inl ⟨.commentLine text, ho.symm, ?_,
                          by simp [renderToken], trivial⟩
                        rw [← hr]
                        simp [renderToken, hmid, hdata]
                      · by_cases hc2s : c2 = '*'
                        · subst hc2s
                          rcases hcb : commentBlockLoop ts (ts + 2) "" rt with
                            e | ⟨text, p1, r1⟩
                          · have hv : dispatch ts ('/' :: '*' :: rt) =
                                .error e := by
                              simp [dispatch, hcb]
                            rw [hv] at h
                            cases h
                          · have hv : dispatch ts ('/' :: '*' :: rt) =
                                .ok (some (.commentBlock text), p1, r1) := by
                              simp [dispatch, hcb]
                            rw [hv] at h
                            simp only [Except.ok.injEq, Prod.mk.injEq] at h
                            obtain ⟨ho, _, hr⟩ := h
                            obtain ⟨mid, hmid, hdata⟩ :=
                              commentBlockLoop_ok_spec rt _ _ _ _ _ _ hcb
                            refine Or.inl ⟨.commentBlock text, ho.symm, ?_,
                              by simp [renderToken], trivial⟩
                            rw [← hr]
                            simp [renderToken, hmid, hdata]
                        · have hv : dispatch ts ('/' :: c2 :: rt) =
                              .error ⟨ts, "Unexpected token."⟩ := by
                            simp [dispatch, hc2, hc2s]
                          rw [hv] at h
                          cases h
                  · by_cases h9 : c = '-' ∨ isDigitChar c = true
                    · rcases hpn : parseNumber ts (c :: rr) with
                        e | ⟨tk, p1, r1⟩
                      · have hv : dispatch ts (c :: rr) = .error e := by
                          simp [dispatch, h1, h2, h3, h4, h5, h6, h7, h8, h9,
                            hpn]
                        rw [hv] at h
                        cases h
                      · have hv : dispatch ts (c :: rr) =
                            .ok (some tk, p1, r1) := by
                          simp [dispatch, h1, h2, h3, h4, h5, h6, h7, h8, h9,
                            hpn]
                        rw [hv] at h
                        simp only [Except.ok.injEq, Prod.mk.injEq] at h
                        obtain ⟨ho, _, hr⟩ := h
                        obtain ⟨s, htk, hrest, hne, hgr⟩ :=
                          parseNumber_spec _ _ _ _ _ hpn
                        refine Or.inl ⟨tk, ho.symm, ?_, ?_, ?_⟩
                        · rw [← hr, htk]
                          exact hrest
                        · rw [htk]
                          simpa [renderToken] using hne
                        · rw [htk]
                          exact ⟨hne, hgr⟩
                    · rcases ht1 : tryMoveWord "true" ts (c :: rr) with
                        _ | ⟨p1, r1⟩
                      · rcases ht2 : tryMoveWord "false" ts (c :: rr) with
                          _ | ⟨p1, r1⟩
                        · rcases ht3 : tryMoveWord "null" ts (c :: rr) with
                            _ | ⟨p1, r1⟩
                          · have hv : dispatch ts (c :: rr) =
                                .error ⟨ts, "Unexpected token."⟩ := by
                              simp [dispatch, h1, h2, h3, h4, h5, h6, h7, h8,
                                h9, ht1, ht2, ht3]
                            rw [hv] at h
                            cases h
                          · have hv : dispatch ts (c :: rr) =
                                .ok (some .null, p1, r1) := by
                              simp [dispatch, h1, h2, h3, h4, h5, h6, h7, h8,
                                h9, ht1, ht2, ht3]
                            rw [hv] at h
                            simp only [Except.ok.injEq, Prod.mk.injEq] at h
                            obtain ⟨ho, _, hr⟩ := h
                            obtain ⟨hw, _⟩ := tryMoveWord_spec _ _ _ _ _ ht3
                            refine Or.inl ⟨.null, ho.symm, ?_,
                              by simp [renderToken], trivial⟩
                            rw [← hr]
                            exact hw
                        · have hv : dispatch ts (c :: rr) =
                              .ok (some (.boolean false), p1, r1) := by
                            simp [dispatch, h1, h2, h3, h4, h5, h6, h7, h8,
                              h9, ht1, ht2]
                          rw [hv] at h
                          simp only [Except.ok.injEq, Prod.mk.injEq] at h
                          obtain ⟨ho, _, hr⟩ := h
                          obtain ⟨hw, _⟩ := tryMoveWord_spec _ _ _ _ _ ht2
                          refine Or.inl ⟨.boolean false, ho.symm, ?_,
                            by simp [renderToken], trivial⟩
                          rw [← hr]
                          exact hw
                      · have hv : dispatch ts (c :: rr) =
                            .ok (some (.boolean true), p1, r1) := by
                          simp [dispatch, h1, h2, h3, h4, h5, h6, h7, h8, h9,
                            ht1]
                        rw [hv] at h
                        simp only [Except.ok.injEq, Prod.mk.injEq] at h
                        obtain ⟨ho, _, hr⟩ := h
                        obtain ⟨hw, _⟩ := tryMoveWord_spec _ _ _ _ _ ht1
                        refine Or.inl ⟨.boolean true, ho.symm, ?_,
                          by simp [renderToken], trivial⟩
                        rw [← hr]
                        exact hw

/-- Any "Invalid escape." failure of the dispatch carries the recorded token
start as its position, and the token being scanned there is a string literal:
the character at the token start is the opening quote. -/
theorem dispatch_invalid_escape (ts : Nat) (rest1 : List Char) (e : TokenError)
    (h : dispatch ts rest1 = .error e) (hm : e.message = "Invalid escape.") :
    e.pos = ts ∧ rest1.head? = some '"' := by
  rcases rest1 with _ | ⟨c, rr⟩
  · have hv : dispatch ts [] = .ok (none, ts, []) := rfl
    rw [hv] at h
    cases h
  · by_cases h1 : c = '\x7b'
    · subst h1
      have hv : dispatch ts ('\x7b' :: rr) =
          .ok (some .openBrace, ts + 1, rr) := by simp [dispatch]
      rw [hv] at h
      cases h
    · by_cases h2 : c = '\x7d'
      · subst h2
        have hv : dispatch ts ('\x7d' :: rr) =
            .ok (some .closeBrace, ts + 1, rr) := by simp [dispatch]
        rw [hv] at h
        cases h
      · by_cases h3 : c = '['
        · subst h3
          have hv : dispatch ts ('[' :: rr) =
              .ok (some .openBracket, ts + 1, rr) := by simp [dispatch]
          rw [hv] at h
          cases h
        · by_cases h4 : c = ']'
          · subst h4
            have hv : dispatch ts (']' :: rr) =
                .ok (some .closeBracket, ts + 1, rr) := by simp [dispatch]
            rw [hv] at h
            cases h
          · by_cases h5 : c = ','
            · subst h5
              have hv : dispatch ts (',' :: rr) =
                  .ok (some .comma, ts + 1, rr) := by simp [dispatch]
              rw [hv] at h
              cases h
            · by_cases h6 : c = ':'
              · subst h6
                have hv : dispatch ts (':' :: rr) =
                    .ok (some .colon, ts + 1, rr) := by simp [dispatch]
                rw [hv] at h
                cases h
              · by_cases h7 : c = '"'
                · subst h7
                  rcases hps : parseString ts rr with e2 | ⟨text, p1, r1⟩
                  · have hv : dispatch ts ('"' :: rr) = .error e2 := by
                      simp [dispatch, hps]
                    rw [hv] at h
                    cases h
                    rcases parseStringLoop_error_spec ts (ts + 1) false "" rr
                        _ hps with hpos | hmsg
                    · exact ⟨hpos, rfl⟩
                    · rw [hm] at hmsg
                      exact absurd hmsg (by decide)
                  · have hv : dispatch ts ('"' :: rr) =
                        .ok (some (.string text), p1, r1) := by
                      simp [dispatch, hps]
                    rw [hv] at h
                    cases h
                · by_cases h8 : c = '/'
                  · subst h8
                    rcases rr with _ | ⟨c2, rt⟩
                    · have hv : dispatch ts ['/'] =
                          .error ⟨ts, "Unexpected token."⟩ := by
                        simp [dispatch]
                      rw [hv] at h
                      cases h
                      simp at hm
                    · by_cases hc2 : c2 = '/'
                      · subst hc2
                        rcases hcl : commentLineLoop (ts + 2) "" rt with
                          ⟨text, p1, r1⟩
                        have hv : dispatch ts ('/' :: '/' :: rt) =
                            .ok (some (.commentLine text), p1, r1) := by
                          simp [dispatch, hcl]
                        rw [hv] at h
                        cases h
                      · by_cases hc2s : c2 = '*'
                        · subst hc2s
                          rcases hcb : commentBlockLoop ts (ts + 2) "" rt with
                            e2 | ⟨text, p1, r1⟩
                          · have hv : dispatch ts ('/' :: '*' :: rt) =
                                .error e2 := by
                              simp [dispatch, hcb]
                            rw [hv] at h
                            cases h
                            have := commentBlockLoop_error_spec rt _ _ _ _ hcb
                            rw [this] at hm
                            simp at hm
                          · have hv : dispatch ts ('/' :: '*' :: rt) =
                                .ok (some (.commentBlock text), p1, r1) := by
                              simp [dispatch, hcb]
                            rw [hv] at h
                            cases h
                        · have hv : dispatch ts ('/' :: c2 :: rt) =
                              .error ⟨ts, "Unexpected token."⟩ := by
                            simp [dispatch, hc2, hc2s]
                          rw [hv] at h
                          cases h
                          simp at hm
                  · by_cases h9 : c = '-' ∨ isDigitChar c = true
                    · rcases hpn : parseNumber ts (c :: rr) with
                        e2 | ⟨tk, p1, r1⟩
                      · have hv : dispatch ts (c :: rr) = .error e2 := by
                          simp [dispatch, h1, h2, h3, h4, h5, h6, h7, h8, h9,
                            hpn]
                        rw [hv] at h
                        cases h
                        rcases parseNumber_error_spec _ _ _ hpn with
                          hmsg | hmsg | hmsg <;>
                          · rw [hm] at hmsg
                            exact absurd hmsg (by decide)
                      · have hv : dispatch ts (c :: rr) =
                            .ok (some tk, p1, r1) := by
                          simp [dispatch, h1, h2, h3, h4, h5, h6, h7, h8, h9,
                            hpn]
                        rw [hv] at h
                        cases h
                    · rcases ht1 : tryMoveWord "true" ts (c :: rr) with
                        _ | ⟨p1, r1⟩
                      · rcases ht2 : tryMoveWord "false" ts (c :: rr) with
                          _ | ⟨p1, r1⟩
                        · rcases ht3 : tryMoveWord "null" ts (c :: rr) with
                            _ | ⟨p1, r1⟩
                          · have hv : dispatch ts (c :: rr) =
                                .error ⟨ts, "Unexpected token."⟩ := by
                              simp [dispatch, h1, h2, h3, h4, h5, h6, h7, h8,
                                h9, ht1, ht2, ht3]
                            rw [hv] at h
                            cases h
                            simp at hm
                          · have hv : dispatch ts (c :: rr) =
                                .ok (some .null, p1, r1) := by
                              simp [dispatch, h1, h2, h3, h4, h5, h6, h7, h8,
                                h9, ht1, ht2, ht3]
                            rw [hv] at h
                            cases h
                        · have hv : dispatch ts (c :: rr) =
                              .ok (some (.boolean false), p1, r1) := by
                            simp [dispatch, h1, h2, h3, h4, h5, h6, h7, h8,
                              h9, ht1, ht2]
                          rw [hv] at h
                          cases h
                      · have hv : dispatch ts (c :: rr) =
                            .ok (some (.boolean true), p1, r1) := by
                          simp [dispatch, h1, h2, h3, h4, h5, h6, h7, h8, h9,
                            ht1]
                        rw [hv] at h
                        cases h


/-! ### The claims -/

/-- C2: on `1e5` the scanner rejects the unsigned exponent with
"Expected plus or minus symbol in number literal.", while `1e+5` and `1e-5`
produce Number tokens whose payload is exactly the whole input. -/
theorem c2_exponent_sign_required :
    moveNext 0 ("1e5".toList) =
      .error ⟨2, "Expected plus or minus symbol in number literal."⟩ ∧
    moveNext 0 ("1e+5".toList) = .ok (some (.number "1e+5"), 4, []) ∧
    moveNext 0 ("1e-5".toList) = .ok (some (.number "1e-5"), 4, []) :=
  ⟨rfl, rfl, rfl⟩

/-- C3 counterexample: on the input `"\x"` the invalid escape is reported at
offset 0, the opening quote, and not at offset 1, where the backslash is, so
the claim's position is refuted at this input. -/
theorem c3_counterexample :
    moveNext 0 ['"', '\\', 'x', '"'] = .error ⟨0, "Invalid escape."⟩ ∧
      (0 : Nat) ≠ 1 :=
  ⟨rfl, by decide⟩

/-- C3 (amended): every "Invalid escape." failure of `move_next` carries the
offset of the opening quote of the string literal being scanned (the recorded
token start), not the offset of the backslash. -/
theorem c3_invalid_escape_at_opening_quote (pos : Nat) (rest : List Char)
    (e : TokenError) (h : moveNext pos rest = .error e)
    (hm : e.message = "Invalid escape.") :
    e.pos = (skipWhitespace pos rest).1 ∧
      (skipWhitespace pos rest).2.head? = some '"' := by
  rw [moveNext_eq] at h
  exact dispatch_invalid_escape _ _ _ h hm

/-- Witness for C3's amended theorem at the input `"\x"`. -/
theorem c3_witness :
    moveNext 0 ['"', '\\', 'x', '"'] = .error ⟨0, "Invalid escape."⟩ ∧
    ((⟨0, "Invalid escape."⟩ : TokenError).pos =
        (skipWhitespace 0 ['"', '\\', 'x', '"']).1 ∧
      (skipWhitespace 0 ['"', '\\', 'x', '"']).2.head? = some '"') :=
  ⟨rfl, c3_invalid_escape_at_opening_quote 0 ['"', '\\', 'x', '"'] _ rfl rfl⟩

/-- C4 counterexample: on the input `"\uzzzz` the hex-digit error is reported
at offset 1, the backslash, and not at offset 2, where the `u` is, so the
claim's position is refuted at this input. -/
theorem c4_counterexample :
    moveNext 0 ['"', '\\', 'u', 'z', 'z', 'z', 'z'] =
      .error ⟨1, "Expected four hex digits."⟩ ∧ (1 : Nat) ≠ 2 :=
  ⟨rfl, by decide⟩

/-- C4 (amended): whenever the scanner, at any position and after any run of
skipped whitespace, opens a string literal whose body continues, after a
cleanly scanned prefix, with the escape introducer `\u` not followed by four
hexadecimal digits, `move_next` fails with "Expected four hex digits." at the
offset of the backslash (one before the `u`), not at the offset of the
`u`. -/
theorem c4_hex_error_at_backslash (ws pre tail : List Char) (pos : Nat)
    (hws : ∀ c ∈ ws, isRustWhitespace c = true)
    (hpre : stringBodyStep false pre = some false)
    (h4 : firstFourHex tail = false) :
    moveNext pos (ws ++ '"' :: (pre ++ '\\' :: 'u' :: tail)) =
      .error ⟨pos + ws.length + 1 + pre.length,
        "Expected four hex digits."⟩ := by
  have hskip : skipWhitespace pos (ws ++ '"' :: (pre ++ '\\' :: 'u' :: tail)) =
      (pos + ws.length, '"' :: (pre ++ '\\' :: 'u' :: tail)) := by
    apply skipWhitespace_append ws hws pos
    intro c hc
    simp only [List.head?_cons, Option.some.injEq] at hc
    subst hc
    decide
  rw [moveNext_eq, hskip]
  have hps : parseString (pos + ws.length) (pre ++ '\\' :: 'u' :: tail) =
      .error ⟨pos + ws.length + 1 + pre.length,
        "Expected four hex digits."⟩ :=
    parseStringLoop_hex_error (pos + ws.length) pre tail hpre h4
  simp [dispatch, hps]

/-- Witness for C4's amended theorem at the input `"ab\uz`: the escape sits
after the two-character literal prefix `ab`, and the error is reported at
offset 3, the backslash. -/
theorem c4_witness :
    stringBodyStep false ['a', 'b'] = some false ∧
    firstFourHex ['z'] = false ∧
    moveNext 0 ['"', 'a', 'b', '\\', 'u', 'z'] =
      .error ⟨3, "Expected four hex digits."⟩ :=
  ⟨rfl, rfl, by
    simpa using c4_hex_error_at_backslash [] ['a', 'b'] ['z'] 0 (by simp)
      rfl rfl⟩

/-- C6: every Number token's payload is exactly the consumed source substring
and matches the grammar
`'-'? ('0' | [1-9] digit*) ('.' digit+)? (('e'|'E') ('+'|'-') digit+)?`. -/
theorem c6_number_payload_exact_and_grammar (pos : Nat) (rest : List Char)
    (text : String) (p : Nat) (r : List Char)
    (h : moveNext pos rest = .ok (some (.number text), p, r)) :
    (skipWhitespace pos rest).2 = text.data ++ r ∧
      matchesNumberGrammar text.data = true := by
  rw [moveNext_eq] at h
  rcases dispatch_ok_spec _ _ _ _ _ h with ⟨t, hot, hr1, _, hinv⟩ |
    ⟨hot, _, _⟩
  · simp only [Option.some.injEq] at hot
    subst hot
    exact ⟨by rw [hr1]; rfl, hinv.2⟩
  · cases hot

/-- Witness for C6 at the input `-12.30e+07,`. -/
theorem c6_witness :
    moveNext 0 ("-12.30e+07,".toList) =
      .ok (some (.number "-12.30e+07"), 10, [',']) ∧
    ((skipWhitespace 0 ("-12.30e+07,".toList)).2 =
        ("-12.30e+07" : String).data ++ [','] ∧
      matchesNumberGrammar ("-12.30e+07" : String).data = true) :=
  ⟨rfl, c6_number_payload_exact_and_grammar 0 ("-12.30e+07,".toList)
    "-12.30e+07" 10 [','] rfl⟩

/-- C7: keyword matching is whole-word: a matched word is followed by nothing
or by a non-alphanumeric character, and the input `nullify` produces the
"Unexpected token." error rather than a Null token followed by `ify`. -/
theorem c7_keyword_whole_word :
    (∀ (word : String) (pos : Nat) (rest : List Char) (p : Nat)
        (r : List Char), tryMoveWord word pos rest = some (p, r) →
      rest = word.toList ++ r ∧
        ∀ c, r.head? = some c → isAlphanumericChar c = false) ∧
    moveNext 0 ("nullify".toList) = .error ⟨0, "Unexpected token."⟩ :=
  ⟨fun word pos rest p r h => tryMoveWord_spec word pos rest p r h, rfl⟩

/-- Witness for C7's word-boundary statement at the word `null` inside
`null_`. -/
theorem c7_witness :
    tryMoveWord "null" 0 ("null_".toList) = some (4, ['_']) ∧
    ("null_".toList = "null".toList ++ ['_'] ∧
      ∀ c, (['_'] : List Char).head? = some c →
        isAlphanumericChar c = false) :=
  ⟨rfl, c7_keyword_whole_word.1 "null" 0 ("null_".toList) 4 ['_'] rfl⟩

/-- C8: when the opening quote of a string literal is never followed by a
matching unescaped closing quote before end of input and no other error
occurs inside the literal, `move_next` fails with "Unterminated string
literal" at the offset of the opening quote (the position after the skipped
whitespace), not at the end-of-input offset. -/
theorem c8_unterminated_string_at_opening_quote (ws body : List Char)
    (pos : Nat) (hws : ∀ c ∈ ws, isRustWhitespace c = true)
    (hrun : stringBodyRunsToEOI false body = true) :
    moveNext pos (ws ++ '"' :: body) =
      .error ⟨pos + ws.length, "Unterminated string literal"⟩ := by
  have hskip : skipWhitespace pos (ws ++ '"' :: body) =
      (pos + ws.length, '"' :: body) := by
    apply skipWhitespace_append ws hws pos
    intro c hc
    simp only [List.head?_cons, Option.some.injEq] at hc
    subst hc
    decide
  rw [moveNext_eq, hskip]
  have hps : parseString (pos + ws.length) body =
      .error ⟨pos + ws.length, "Unterminated string literal"⟩ :=
    parseStringLoop_unterminated_spec (pos + ws.length) (pos + ws.length + 1)
      false "" body hrun
  simp [dispatch, hps]

/-- Witness for C8 at the input `"abc`: the error is at offset 0, the opening
quote, not at the end-of-input offset 4. -/
theorem c8_witness :
    stringBodyRunsToEOI false ("abc".toList) = true ∧
    moveNext 0 ('"' :: "abc".toList) =
      .error ⟨0, "Unterminated string literal"⟩ :=
  ⟨by decide, by
    simpa using c8_unterminated_string_at_opening_quote [] ("abc".toList) 0
      (by simp) (by decide)⟩

/-- C9: on `null_` the scanner returns the Null token, since the word-boundary
check rejects only alphanumeric followers and the underscore is not
alphanumeric; the subsequent call then fails on the underscore. -/
theorem c9_underscore_does_not_block_keyword :
    moveNext 0 ("null_".toList) = .ok (some .null, 4, ['_']) ∧
    isAlphanumericChar '_' = false ∧
    moveNext 4 ['_'] = .error ⟨4, "Unexpected token."⟩ :=
  ⟨rfl, by decide, rfl⟩

/-- C10: when the input ends inside a `\u` escape of a string literal before
four hexadecimal digits have been read — at any scanner position, after any
run of skipped whitespace, and after any cleanly scanned prefix of the
literal body — `move_next` fails with "Expected four hex digits." at the
backslash, not with "Unterminated string literal". -/
theorem c10_eof_inside_hex_escape (ws pre hs : List Char) (pos : Nat)
    (hws : ∀ c ∈ ws, isRustWhitespace c = true)
    (hpre : stringBodyStep false pre = some false)
    (hlen : hs.length < 4) (hhex : ∀ c ∈ hs, isHexChar c = true) :
    moveNext pos (ws ++ '"' :: (pre ++ '\\' :: 'u' :: hs)) =
      .error ⟨pos + ws.length + 1 + pre.length,
        "Expected four hex digits."⟩ := by
  have h4 : firstFourHex hs = false := by
    rcases hs with _ | ⟨a, _ | ⟨b, _ | ⟨c, _ | ⟨d, tl⟩⟩⟩⟩
    · rfl
    · rfl
    · rfl
    · rfl
    · exfalso
      simp only [List.length_cons] at hlen
      omega
  have hskip : skipWhitespace pos (ws ++ '"' :: (pre ++ '\\' :: 'u' :: hs)) =
      (pos + ws.length, '"' :: (pre ++ '\\' :: 'u' :: hs)) := by
    apply skipWhitespace_append ws hws pos
    intro c hc
    simp only [List.head?_cons, Option.some.injEq] at hc
    subst hc
    decide
  rw [moveNext_eq, hskip]
  have hps : parseString (pos + ws.length) (pre ++ '\\' :: 'u' :: hs) =
      .error ⟨pos + ws.length + 1 + pre.length,
        "Expected four hex digits."⟩ :=
    parseStringLoop_hex_error (pos + ws.length) pre hs hpre h4
  simp [dispatch, hps]

/-- Witness for C10 at the input `"ab\u12`: the input ends after two hex
digits of an escape that sits after the two-character literal prefix `ab`,
and the error is reported at offset 3, the backslash. -/
theorem c10_witness :
    stringBodyStep false ['a', 'b'] = some false ∧
    (['1', '2'] : List Char).length < 4 ∧
    (∀ c ∈ (['1', '2'] : List Char), isHexChar c = true) ∧
    moveNext 0 ['"', 'a', 'b', '\\', 'u', '1', '2'] =
      .error ⟨3, "Expected four hex digits."⟩ :=
  ⟨rfl, by decide, by decide, by
    simpa using c10_eof_inside_hex_escape [] ['a', 'b'] ['1', '2'] 0 (by simp)
      rfl (by decide) (by decide)⟩

end JsoncScanner
